import Mathlib

/-!
Verification of the Toqan AI bridge large-request subsystem: token
estimation, text segmentation with overlap, upload retry/backoff,
completion polling, strategy selection and request orchestration.

Modelling conventions used throughout this development:

* JavaScript floating-point arithmetic on the small decimal multipliers
  (0.85, 0.9, 0.95, 1.05, 1.1, 1.15, 0.02) is modelled with exact
  rational arithmetic; every concrete input evaluated below stays far
  from the double-rounding boundaries, where both semantics agree.
* JavaScript string indices and lengths (UTF-16 code units) are modelled
  as code-point counts; these coincide for all texts considered here,
  and every regular expression of the source is translated into an
  executable character-list matcher with the same match semantics.
* Wall-clock readings (Date.now) are modelled as 0, and sleeps are
  recorded as trace data (durations in milliseconds) instead of waiting.
* Loops bounded by an attempt budget are written with an explicit fuel
  argument equal to the budget used by the source.
* The backend transport (create/continue/getAnswer/uploadFile) is an
  explicit parameter: a failed network call is an `Except.error`
  carrying the error message.
-/

namespace Toqan

/-! ## JavaScript character classes and regex-split primitives -/

/-- The JavaScript regular-expression class whitespace test, covering the ASCII
whitespace characters and the Unicode space code points. -/
def jsWhitespace (c : Char) : Bool :=
  c == ' ' || c == '\t' || c == '\n' || c == '\r' ||
  c.val == 11 || c.val == 12 || c.val == 0xa0 || c.val == 0x1680 ||
  (0x2000 ≤ c.val && c.val ≤ 0x200a) || c.val == 0x2028 || c.val == 0x2029 ||
  c.val == 0x202f || c.val == 0x205f || c.val == 0x3000 || c.val == 0xfeff

/-- ASCII digit, as matched by the regex digit class. -/
def jsDigit (c : Char) : Bool := 48 ≤ c.val && c.val ≤ 57

/-- ASCII uppercase letter, as matched by the character range of uppercase letters. -/
def jsUpper (c : Char) : Bool := 65 ≤ c.val && c.val ≤ 90

/-- ASCII lowercase letter. -/
def jsLower (c : Char) : Bool := 97 ≤ c.val && c.val ≤ 122

/-- ASCII letter. -/
def jsAlpha (c : Char) : Bool := jsUpper c || jsLower c

/-- The regex word-character class: letters, digits and underscore. -/
def jsWordChar (c : Char) : Bool := jsAlpha c || jsDigit c || c == '_'

/-- Characters matched by the regex dot (anything except a line terminator). -/
def jsDotChar (c : Char) : Bool :=
  !(c == '\n' || c == '\r' || c.val == 0x2028 || c.val == 0x2029)

/-- JavaScript line terminators (boundaries for multiline anchors). -/
def lineTerm (c : Char) : Bool :=
  c == '\n' || c == '\r' || c.val == 0x2028 || c.val == 0x2029

/-- Splitting a string on maximal runs of characters satisfying `p`, with the
JavaScript `String.split` convention: a leading or trailing separator run
produces a leading or trailing empty element.  The fuel argument (one more
than the character count at the call sites) only forces structural
recursion: every step consumes at least one character. -/
def jsSplitClassAux (p : Char → Bool) : Nat → List Char → List Char → List (List Char)
  | 0, _, acc => [acc.reverse]
  | fuel + 1, l, acc =>
    match l with
    | [] => [acc.reverse]
    | c :: cs =>
      if p c then acc.reverse :: jsSplitClassAux p fuel (cs.dropWhile p) []
      else jsSplitClassAux p fuel cs (c :: acc)

/-- JS `text.split` on one-or-more whitespace characters. -/
def jsSplitWhitespace (s : String) : List String :=
  (jsSplitClassAux jsWhitespace (s.data.length + 1) s.data []).map List.asString

/-- Terminal sentence punctuation. -/
def sentencePunct (c : Char) : Bool := c == '.' || c == '!' || c == '?'

/-- JS `text.split` on one-or-more terminal-punctuation characters. -/
def jsSplitPunctRuns (s : String) : List String :=
  (jsSplitClassAux sentencePunct (s.data.length + 1) s.data []).map List.asString

/-- Index of the last newline character of a list, if any. -/
def lastNewlineIdx : List Char → Option Nat
  | [] => none
  | c :: cs =>
    match lastNewlineIdx cs with
    | some i => some (i + 1)
    | none => if c == '\n' then some 0 else none

/-- Splitting on the paragraph-break pattern (a newline, then any whitespace,
then a newline, matched greedily): a match starting at a newline spans up to
the last newline inside the maximal whitespace run that follows it.  Fuel as
in `jsSplitClassAux`. -/
def jsSplitParaAux : Nat → List Char → List Char → List (List Char)
  | 0, _, acc => [acc.reverse]
  | fuel + 1, l, acc =>
    match l with
    | [] => [acc.reverse]
    | c :: cs =>
      if c == '\n' then
        match lastNewlineIdx (cs.takeWhile jsWhitespace) with
        | some k => acc.reverse :: jsSplitParaAux fuel (cs.drop (k + 1)) []
        | none => jsSplitParaAux fuel cs (c :: acc)
      else jsSplitParaAux fuel cs (c :: acc)

/-- JS split on the blank-line pattern used for paragraphs. -/
def jsSplitParagraphs (s : String) : List String :=
  (jsSplitParaAux (s.data.length + 1) s.data []).map List.asString

/-- Splitting on the sentence-break pattern: a maximal whitespace run that is
preceded by terminal punctuation and followed by an uppercase letter (the
lookbehind/lookahead keep the punctuation and the letter in the units).
Fuel as in `jsSplitClassAux`. -/
def jsSplitSentAux : Nat → List Char → List Char → Option Char → List (List Char)
  | 0, _, acc, _ => [acc.reverse]
  | fuel + 1, l, acc, prev =>
    match l with
    | [] => [acc.reverse]
    | c :: cs =>
      if jsWhitespace c &&
          (prev == some '.' || prev == some '!' || prev == some '?') then
        match cs.dropWhile jsWhitespace with
        | d :: rest =>
          if jsUpper d then acc.reverse :: jsSplitSentAux fuel rest [d] (some d)
          else jsSplitSentAux fuel cs (c :: acc) (some c)
        | [] => jsSplitSentAux fuel cs (c :: acc) (some c)
      else jsSplitSentAux fuel cs (c :: acc) (some c)

/-- JS split on the sentence-boundary pattern. -/
def jsSplitSentences (s : String) : List String :=
  (jsSplitSentAux (s.data.length + 1) s.data [] none).map List.asString

/-- JS `toLowerCase`, character by character (ASCII case mapping; the inputs
considered here contain no non-ASCII uppercase letters). -/
def jsToLower (s : String) : String := (s.data.map Char.toLower).asString

/-- Splitting into lines at every line terminator, for multiline anchors. -/
def splitLinesAux (l : List Char) (acc : List Char) : List (List Char) :=
  match l with
  | [] => [acc.reverse]
  | c :: cs =>
    if lineTerm c then acc.reverse :: splitLinesAux cs []
    else splitLinesAux cs (c :: acc)

/-! ## Content-type detection patterns -/

/-- Tests whether every suffix position of the list admits a match of `p`
(the scan performed by an unanchored regex test). -/
def scanSuffixes (p : List Char → Bool) : List Char → Bool
  | [] => p []
  | c :: cs => p (c :: cs) || scanSuffixes p cs

/-- Matches a literal character list at the front, returning the remainder. -/
def matchLit : List Char → List Char → Option (List Char)
  | [], l => some l
  | _, [] => none
  | p :: ps, c :: cs => if p == c then matchLit ps cs else none

/-- Whether the pattern occurs as a contiguous subsequence of the list. -/
def containsSeq (pat : List Char) (l : List Char) : Bool :=
  scanSuffixes (fun t => (matchLit pat t).isSome) l

/-- Match, at the current position, a function declaration: the word
function, whitespace, an identifier, optional whitespace, an open paren. -/
def matchFunctionAt (l : List Char) : Bool :=
  match matchLit "function".data l with
  | some (c :: cs) =>
    jsWhitespace c &&
      (match cs.dropWhile jsWhitespace with
       | d :: ds =>
         jsWordChar d &&
           (match (ds.dropWhile jsWordChar).dropWhile jsWhitespace with
            | '(' :: _ => true
            | _ => false)
       | [] => false)
  | _ => false

/-- Code pattern: a function declaration somewhere in the text. -/
def hasFunctionDecl (l : List Char) : Bool := scanSuffixes matchFunctionAt l

/-- Match, at the current position, the word class, whitespace, an identifier. -/
def matchClassAt (l : List Char) : Bool :=
  match matchLit "class".data l with
  | some (c :: cs) =>
    jsWhitespace c &&
      (match cs.dropWhile jsWhitespace with
       | d :: _ => jsWordChar d
       | [] => false)
  | _ => false

/-- Code pattern: a class declaration somewhere in the text. -/
def hasClassDecl (l : List Char) : Bool := scanSuffixes matchClassAt l

/-- From the current position, can the word from be reached by consuming only
non-line-terminator characters? -/
def searchFromNoNl : List Char → Bool
  | [] => false
  | c :: cs => (matchLit "from".data (c :: cs)).isSome || (jsDotChar c && searchFromNoNl cs)

/-- After at least one whitespace character: either continue the whitespace run
or switch to the dot-star phase looking for the word from. -/
def importPhaseA (l : List Char) : Bool :=
  searchFromNoNl l ||
    (match l with
     | c :: cs => jsWhitespace c && importPhaseA cs
     | [] => false)

/-- Match, at the current position, the word import, whitespace, anything on
the same line, the word from. -/
def matchImportAt (l : List Char) : Bool :=
  match matchLit "import".data l with
  | some (c :: cs) => jsWhitespace c && importPhaseA cs
  | _ => false

/-- Code pattern: an import-from somewhere in the text. -/
def hasImportFrom (l : List Char) : Bool := scanSuffixes matchImportAt l

/-- Code pattern: an opening brace with a closing brace somewhere after it. -/
def hasBracePair (l : List Char) : Bool :=
  match l.dropWhile (fun c => !(c == '{')) with
  | [] => false
  | _ :: rest => rest.contains '}'

/-- Code pattern: a block comment opener followed later by a closer. -/
def hasBlockComment (l : List Char) : Bool :=
  scanSuffixes
    (fun l =>
      match matchLit "/*".data l with
      | some rest => containsSeq "*/".data rest
      | none => false) l

/-- Code pattern: a line comment marker anywhere. -/
def hasLineComment (l : List Char) : Bool := containsSeq "//".data l

/-- Structured pattern: the string starts (after whitespace) with a brace or
a square bracket. -/
def startsWithBracket (l : List Char) : Bool :=
  match l.dropWhile jsWhitespace with
  | c :: _ => c == '{' || c == '['
  | [] => false

/-- Match, at the current position, a JSON-like key-value pair: a quoted word,
a colon, optional whitespace, then a quote, digit, bracket or brace. -/
def matchJsonKVAt (l : List Char) : Bool :=
  match l with
  | '"' :: r =>
    (match r with
     | d :: _ =>
       jsWordChar d &&
         (match r.dropWhile jsWordChar with
          | '"' :: ':' :: r2 =>
            (match r2.dropWhile jsWhitespace with
             | e :: _ => e == '"' || jsDigit e || e == '[' || e == '{'
             | [] => false)
          | _ => false)
     | [] => false)
  | _ => false

/-- Structured pattern: a JSON-like key-value pair somewhere. -/
def hasJsonKV (l : List Char) : Bool := scanSuffixes matchJsonKVAt l

/-- Match, at the current position, a markup tag: an angle bracket, an optional
slash, a word character, then a closing angle bracket further on. -/
def matchTagAt (l : List Char) : Bool :=
  match l with
  | '<' :: r =>
    (match (match r with | '/' :: rr => rr | _ => r) with
     | d :: rest => jsWordChar d && rest.contains '>'
     | [] => false)
  | _ => false

/-- Structured pattern: a markup tag somewhere. -/
def hasTag (l : List Char) : Bool := scanSuffixes matchTagAt l

/-- A line of the form: optional whitespace, an identifier, a colon, and at
least one further character. -/
def kvLine (line : List Char) : Bool :=
  match line.dropWhile jsWhitespace with
  | d :: _ =>
    jsWordChar d &&
      (match (line.dropWhile jsWhitespace).dropWhile jsWordChar with
       | ':' :: r => !r.isEmpty
       | _ => false)
  | [] => false

/-- Structured pattern: some line is a key-colon-value line. -/
def hasKVLine (l : List Char) : Bool := (splitLinesAux l []).any kvLine

/-- The natural-language character set: letters, whitespace and common
punctuation. -/
def naturalChar (c : Char) : Bool :=
  jsAlpha c || jsWhitespace c || c == '.' || c == ',' || c == '!' || c == '?' ||
  c == ';' || c == ':' || c == '\'' || c == '"' || c == '(' || c == ')' || c == '-'

/-- The whole (non-empty) string consists of natural-language characters. -/
def matchesNaturalLanguage (l : List Char) : Bool := !l.isEmpty && l.all naturalChar

/-! ## Token estimation -/

/-- Content types recognised by the estimator. -/
inductive ContentType
  | natural_language
  | code
  | structured_data
  | mixed
deriving DecidableEq, Repr

/-- Languages recognised by the estimator. -/
inductive Lang
  | english
  | portuguese
  | mixed
  | other
deriving DecidableEq, Repr

/-- Detect the content type of a text from the code, structured-data and
natural-language pattern scores. -/
def detectContentType (s : String) : ContentType :=
  let l := s.data
  let codeScore :=
    (if hasFunctionDecl l then 1 else 0) + (if hasClassDecl l then 1 else 0) +
    (if hasImportFrom l then 1 else 0) + (if hasBracePair l then 1 else 0) +
    (if hasBlockComment l then 1 else 0) + (if hasLineComment l then 1 else 0)
  let structuredScore :=
    (if startsWithBracket l then 1 else 0) + (if hasJsonKV l then 1 else 0) +
    (if hasTag l then 1 else 0) + (if hasKVLine l then 1 else 0)
  if codeScore ≥ 2 then .code
  else if structuredScore ≥ 2 then .structured_data
  else if matchesNaturalLanguage l then .natural_language
  else .mixed

/-- Portuguese marker words. -/
def portugueseWords : List String :=
  ["que", "não", "para", "com", "uma", "mais", "muito", "quando", "onde", "como",
   "também", "então", "porque", "sobre", "depois", "apenas", "assim", "ainda"]

/-- English marker words. -/
def englishWords : List String :=
  ["the", "and", "that", "with", "for", "you", "this", "but", "his", "from",
   "they", "she", "her", "been", "than", "what", "were", "said", "each", "which"]

/-- Detect the language from marker-word counts over the first 100
whitespace-delimited tokens of the lowercased text. -/
def detectLanguage (s : String) : Lang :=
  let words := (jsSplitWhitespace (jsToLower s)).take 100
  let portugueseScore := (words.filter (fun w => portugueseWords.contains w)).length
  let englishScore := (words.filter (fun w => englishWords.contains w)).length
  if portugueseScore > englishScore ∧ portugueseScore > 2 then .portuguese
  else if englishScore > portugueseScore ∧ englishScore > 2 then .english
  else .mixed

/-- Repetitiveness of a text: one minus the unique-word ratio, clamped to
the unit interval; zero for short texts. -/
def calculateRepetitiveness (s : String) : ℚ :=
  if s.length < 100 then 0
  else
    let words := jsSplitWhitespace (jsToLower s)
    if words.length < 10 then 0
    else
      let uniqueWords := words.dedup
      min 1 (max 0 (1 - (uniqueWords.length : ℚ) / (words.length : ℚ)))

/-- Content-type multiplier. -/
def contentMultiplier : ContentType → ℚ
  | .natural_language => 0.85
  | .code => 1.15
  | .structured_data => 1.1
  | .mixed => 1

/-- Language multiplier. -/
def languageMultiplier : Lang → ℚ
  | .english => 0.95
  | .portuguese => 1.05
  | .mixed => 1
  | .other => 1

/-- Token estimate: base estimate of a quarter of the length, rounded up,
refined by the content, language, repetitiveness and whitespace factors,
never below one for non-empty text. -/
def estimateTokens (s : String) (contentType : ContentType) (language : Lang) : Nat :=
  if s.length = 0 then 0
  else
    let baseTokens : Nat := (s.length + 3) / 4
    let repetitiveness := calculateRepetitiveness s
    let whitespaceRatio : ℚ := ((s.data.filter jsWhitespace).length : ℚ) / (s.length : ℚ)
    let characteristicMultiplier : ℚ :=
      (if repetitiveness > 0.3 then (0.9 : ℚ) else 1) *
      (if whitespaceRatio > 0.25 then (1.05 : ℚ) else 1)
    let estimated :=
      Int.ceil ((baseTokens : ℚ) * contentMultiplier contentType *
        languageMultiplier language * characteristicMultiplier)
    max 1 estimated.toNat

/-- Token estimate with automatically detected content type and language. -/
def smartEstimateTokens (s : String) : Nat :=
  estimateTokens s (detectContentType s) (detectLanguage s)

/-- Whether the estimated size of a text exceeds a token limit. -/
def exceedsTokenLimit (s : String) (limit : Nat) : Bool :=
  smartEstimateTokens s > limit

/-- Recommended processing strategy from the estimated token count. -/
def getRecommendedStrategy (s : String) : String :=
  let tokens := smartEstimateTokens s
  if tokens ≤ 115000 then "direct"
  else if tokens ≤ 200000 then "chunks"
  else if tokens ≤ 500000 then "file"
  else "hybrid"

/-! ## Chunking service

The chunking service is written against an arbitrary estimator
`est : String → Nat`; the source always instantiates it with
`smartEstimateTokens` (see `chunkText`).  The source field names
chunkPrefix and chunkSuffix are rendered here as `chunkPre` and
`chunkSuf`. -/

/-- Available split strategies. -/
inductive SplitStrategy
  | paragraph
  | sentence
  | word
  | character
deriving DecidableEq, Repr

/-- Chunking options, with the constructor defaults already applied. -/
structure ChunkOptions where
  maxTokensPerChunk : Nat := 115000
  overlapTokens : Nat := 1000
  splitStrategy : SplitStrategy := SplitStrategy.paragraph
  chunkPre : String := ""
  chunkSuf : String := ""
deriving DecidableEq, Repr

/-- A text chunk with its metadata. -/
structure TextChunk where
  content : String
  tokens : Nat
  index : Nat
  totalChunks : Nat
  isFirst : Bool
  isLast : Bool
  startPos : Nat
  endPos : Nat
deriving DecidableEq, Repr

/-- A chunk before the metadata pass: content, token count and positions. -/
structure PlainChunk where
  content : String
  tokens : Nat
  startPos : Nat
  endPos : Nat
deriving DecidableEq, Repr

/-- A bucket produced by the grouping loop, keeping the pieces of the
current-chunk array separate: the optional overlap extract pushed first
(`seed`) and the accumulated atomic units.  The source's currentChunk
array is exactly `seed.toList ++ units`, joined with the separator. -/
structure RawChunk where
  seed : Option String
  units : List String
  tokens : Nat
  startPos : Nat
  endPos : Nat
deriving DecidableEq, Repr

/-- Wraps chunk content in the configured literals. -/
def addPrefixSuffix (opts : ChunkOptions) (content : String) : String :=
  opts.chunkPre ++ content ++ opts.chunkSuf

/-- Overlap extract: the last half-of-overlapTokens words of the closed
chunk, introduced by an ellipsis marker; nothing when that count is zero. -/
def extractOverlap (text : String) (overlapTokens : Nat) : Option String :=
  let words := jsSplitWhitespace text
  let wordsToTake := min (overlapTokens / 2) words.length
  if wordsToTake = 0 then none
  else some ("..." ++ String.intercalate " " (words.drop (words.length - wordsToTake)))

/-- The joined content of a bucket (the source's currentChunk.join). -/
def RawChunk.joined (sep : String) (c : RawChunk) : String :=
  String.intercalate sep (c.seed.toList ++ c.units)

/-- A bucket as the source emits it: joined, wrapped, with count and offsets. -/
def RawChunk.toPlain (opts : ChunkOptions) (sep : String) (c : RawChunk) : PlainChunk :=
  ⟨addPrefixSuffix opts (c.joined sep), c.tokens, c.startPos, c.endPos⟩

/-- The greedy bucketing loop.  State: the running index, the optional
overlap seed plus accumulated units of the open chunk, its token count and
its offsets.  A unit that would overflow a non-empty chunk closes it, seeds
the next chunk with the overlap extract of the closed content when overlap
is configured (the emptiness test on the emitted-chunks list is always true
at that point, since a chunk was just emitted), and accumulation continues. -/
def bucketsGo (est : String → Nat) (maxTokensPerChunk overlapTokens : Nat) (sep : String) :
    List String → Nat → Option String → List String → Nat → Nat → Nat → List RawChunk
  | [], _i, seed, cur, currentTokens, startPos, currentPos =>
    if seed.isSome ∨ cur ≠ [] then [⟨seed, cur, currentTokens, startPos, currentPos⟩] else []
  | u :: rest, i, seed, cur, currentTokens, startPos, currentPos =>
    let unitTokens := est u
    let separatorTokens := if 0 < i then est sep else 0
    let nextPos := currentPos + u.length + (if 0 < i then sep.length else 0)
    if maxTokensPerChunk < currentTokens + unitTokens + separatorTokens ∧
        (seed.isSome ∨ cur ≠ []) then
      let chunkContent := String.intercalate sep (seed.toList ++ cur)
      let ov := if 0 < overlapTokens then extractOverlap chunkContent overlapTokens else none
      let seedTokens := match ov with | some o => est o | none => 0
      ⟨seed, cur, currentTokens, startPos, currentPos⟩ ::
        bucketsGo est maxTokensPerChunk overlapTokens sep rest (i + 1) ov [u]
          (seedTokens + unitTokens + separatorTokens) currentPos nextPos
    else
      bucketsGo est maxTokensPerChunk overlapTokens sep rest (i + 1) seed (cur ++ [u])
        (currentTokens + unitTokens + separatorTokens) startPos nextPos

/-- The buckets built from a unit list, starting from the empty state. -/
def bucketBlocks (est : String → Nat) (opts : ChunkOptions) (units : List String)
    (sep : String) : List RawChunk :=
  bucketsGo est opts.maxTokensPerChunk opts.overlapTokens sep units 0 none [] 0 0 0

/-- Grouping units into token-sized buckets, as the source emits them. -/
def groupIntoBuckets (est : String → Nat) (opts : ChunkOptions) (units : List String)
    (sep : String) : List PlainChunk :=
  (bucketBlocks est opts units sep).map (RawChunk.toPlain opts sep)

/-- JS `text.lastIndexOf` of a space at or before the given position. -/
def lastSpaceLEAux : List Char → Nat → Nat → Option Nat → Option Nat
  | [], _, _, best => best
  | c :: cs, idx, pos, best =>
    if pos < idx then best
    else lastSpaceLEAux cs (idx + 1) pos (if c == ' ' then some idx else best)

/-- Index of the last space at or before `pos`, if any. -/
def jsLastIndexOfSpace (s : String) (pos : Nat) : Option Nat :=
  lastSpaceLEAux s.data 0 pos none

/-- JS `text.slice` between two positions. -/
def jsSlice (s : String) (a b : Nat) : String :=
  ((s.data.drop a).take (b - a)).asString

/-- The character-window walk.  The fuel equals the text length plus one;
every productive iteration advances the cursor, so the fuel is never
exhausted unless the window size is zero (where the source loops forever). -/
def splitByCharsGo (est : String → Nat) (opts : ChunkOptions) (text : String) :
    Nat → Nat → List PlainChunk
  | 0, _ => []
  | fuel + 1, startPos =>
    if startPos < text.length then
      let maxCharsPerChunk := opts.maxTokensPerChunk * 4
      let endPos0 := min (startPos + maxCharsPerChunk) text.length
      let endPos :=
        if endPos0 < text.length then
          match jsLastIndexOfSpace text endPos0 with
          | some nearbySpace =>
            if startPos < nearbySpace ∧ endPos0 < nearbySpace + 100 then nearbySpace
            else endPos0
          | none => endPos0
        else endPos0
      let chunkContent := jsSlice text startPos endPos
      ⟨addPrefixSuffix opts chunkContent, est chunkContent, startPos, endPos⟩ ::
        splitByCharsGo est opts text fuel endPos
    else []

/-- Last-resort splitting by fixed character windows with a backward search
for a nearby space. -/
def splitByCharacters (est : String → Nat) (opts : ChunkOptions) (text : String) :
    List PlainChunk :=
  splitByCharsGo est opts text (text.length + 1) 0

/-- Dispatch on the configured split strategy. -/
def performSplit (est : String → Nat) (opts : ChunkOptions) (text : String) :
    List PlainChunk :=
  match opts.splitStrategy with
  | .paragraph => groupIntoBuckets est opts (jsSplitParagraphs text) "\n\n"
  | .sentence => groupIntoBuckets est opts (jsSplitSentences text) " "
  | .word => groupIntoBuckets est opts (jsSplitWhitespace text) " "
  | .character => splitByCharacters est opts text

/-- The metadata pass: index, total count and the first/last flags. -/
def withMeta (n : Nat) (i : Nat) (c : PlainChunk) : TextChunk :=
  ⟨c.content, c.tokens, i, n, decide (i = 0), decide (i = n - 1), c.startPos, c.endPos⟩

/-- Split text into chunks: empty or whitespace-only text yields no chunks;
text whose estimate fits the ceiling is returned whole as a single chunk;
otherwise the configured strategy splits it and metadata is attached. -/
def splitText (est : String → Nat) (opts : ChunkOptions) (text : String) :
    List TextChunk :=
  if text.data.all jsWhitespace then []
  else
    let totalTokens := est text
    if totalTokens ≤ opts.maxTokensPerChunk then
      [⟨text, totalTokens, 0, 1, true, true, 0, text.length⟩]
    else
      let chunks := performSplit est opts text
      chunks.mapIdx (withMeta chunks.length)

/-- Convenience entry point, with the estimator the source uses. -/
def chunkText (opts : ChunkOptions) (text : String) : List TextChunk :=
  splitText smartEstimateTokens opts text

/-- Chunk options derived from the text characteristics. -/
def calculateOptimalChunkSize (text : String) : ChunkOptions :=
  let totalTokens := smartEstimateTokens text
  if totalTokens ≤ 115000 then
    { maxTokensPerChunk := totalTokens, overlapTokens := 1000,
      splitStrategy := SplitStrategy.paragraph, chunkPre := "", chunkSuf := "" }
  else
    let paragraphs := (jsSplitParagraphs text).length
    let sentences := (jsSplitPunctRuns text).length
    let splitStrategy : SplitStrategy :=
      if 10 < paragraphs then .paragraph
      else if 50 < sentences then .sentence
      else .word
    let overlapTokens := min 2000 (totalTokens * 2 / 100)
    { maxTokensPerChunk := 115000, overlapTokens := overlapTokens,
      splitStrategy := splitStrategy, chunkPre := "", chunkSuf := "" }

/-! ## Upload service -/

/-- Exponential backoff: 1000 ms doubled per attempt, capped at 10000 ms. -/
def backoffDelay (attempt : Nat) : Nat := min (1000 * 2 ^ (attempt - 1)) 10000

/-- Outcome of the retrying upload: the result, the number of transport
calls made, and the sleeps performed between consecutive attempts. -/
structure UploadOutcome where
  result : Except String String
  attemptsUsed : Nat
  sleeps : List Nat
deriving Repr

/-- The message of the retries-exhausted error.  A missing last error (only
possible with a zero retry budget, where the loop never runs) prints as the
JavaScript undefined. -/
def uploadFailMsg (maxRetries : Nat) (lastError : Option String) : String :=
  "Upload failed after " ++ toString maxRetries ++ " attempts: " ++ lastError.getD "undefined"

/-- The retry loop, one-based in the attempt counter: call the transport; on
failure sleep with exponential backoff and retry while attempts remain,
otherwise fail with the last error wrapped.  The fuel counts the remaining
attempts (the budget at the entry point); fuel zero is the loop never
running, which only happens with a zero budget. -/
def uploadGo (transport : Nat → Except String String) (maxRetries : Nat) :
    Nat → Nat → Option String → UploadOutcome
  | 0, _attempt, lastError => ⟨.error (uploadFailMsg maxRetries lastError), 0, []⟩
  | fuel + 1, attempt, _lastError =>
    match transport attempt with
    | .ok fileId => ⟨.ok fileId, 1, []⟩
    | .error e =>
      if attempt < maxRetries then
        let rest := uploadGo transport maxRetries fuel (attempt + 1) (some e)
        ⟨rest.result, rest.attemptsUsed + 1, backoffDelay attempt :: rest.sleeps⟩
      else
        ⟨.error (uploadFailMsg maxRetries (some e)), 1, []⟩

/-- Upload with retry, starting at the first attempt with no last error. -/
def uploadWithRetry (transport : Nat → Except String String) (maxRetries : Nat) :
    UploadOutcome :=
  uploadGo transport maxRetries maxRetries 1 none

/-- The parts of the upload result the orchestrator consumes. -/
structure FileUploadResultM where
  fileId : String
  tokens : Nat
  fileSize : Nat
deriving DecidableEq, Repr

/-- Upload of text as a backend file: blank content is rejected before the
try block (hence unwrapped); any failure inside it is wrapped.  The
transient temp-file write, read and cleanup of the source are modelled as
the identity on the content, whose size is its UTF-8 byte count. -/
def uploadTextAsFile (transport : Nat → Except String String) (maxRetries : Nat)
    (content : String) : Except String FileUploadResultM :=
  if content.data.all jsWhitespace then .error "Content cannot be empty for file upload"
  else
    match (uploadWithRetry transport maxRetries).result with
    | .ok fileId => .ok ⟨fileId, smartEstimateTokens content, content.utf8ByteSize⟩
    | .error m => .error ("File upload failed: " ++ m)

/-- File-upload recommendation: an explicit strategy wins, otherwise the
200000-token threshold decides. -/
def shouldUseFileUpload (content : String) (strategy : Option String) : Bool :=
  match strategy with
  | some s => s == "file" || s == "hybrid"
  | none => 200000 < smartEstimateTokens content

/-! ## Completion poller -/

/-- Errors the poller can raise: the attempt budget ran out, or the final
attempt hit a transport error which is re-raised. -/
inductive PollError
  | timeout (attempts : Nat)
  | transport (msg : String)
deriving DecidableEq, Repr

/-- The message carried by a poll error. -/
def PollError.message : PollError → String
  | .timeout n => "Timeout waiting for answer after " ++ toString n ++ " attempts"
  | .transport m => m

/-- One step of processing, as recorded in the per-request audit log.
Wall-clock times are modelled as zero. -/
structure ProcessingStep where
  step : String
  startTime : Nat := 0
  duration : Nat := 0
  success : Bool
  tokens : Option Nat := none
  error : Option String := none
  conversationId : Option String := none
  requestId : Option String := none
  additionalInfo : Option String := none
deriving DecidableEq, Repr

/-- The polling loop.  The backend is a function of the attempt counter; the
fuel starts equal to the budget, so fuel zero is the loop exit with the
counter at the budget.  Success needs the exact status finished and a
non-empty answer; a transport error on the last remaining attempt is
re-raised, earlier ones are tolerated.  Returns the result, the number of
status queries made and the audit steps appended. -/
def pollGo (b : Nat → Except String (String × String)) (maxAttempts : Nat) :
    Nat → Nat → Except PollError String × Nat × List ProcessingStep
  | 0, attempts =>
    (.error (.timeout attempts), 0,
      [{ step := "Poll for Answer", success := false,
         error := some "Timeout waiting for answer",
         additionalInfo := some ("Timed out after " ++ toString attempts ++ " attempts") }])
  | fuel + 1, attempts =>
    match b attempts with
    | .ok (status, answer) =>
      if status = "finished" ∧ answer ≠ "" then
        (.ok answer, 1,
          [{ step := "Poll for Answer", success := true,
             additionalInfo := some ("Completed after " ++ toString (attempts + 1) ++ " attempts") }])
      else
        let r := pollGo b maxAttempts fuel (attempts + 1)
        (r.1, r.2.1 + 1, r.2.2)
    | .error m =>
      if maxAttempts - 1 ≤ attempts then
        (.error (.transport m), 1,
          [{ step := "Poll for Answer", success := false, error := some m,
             additionalInfo := some ("Failed after " ++ toString (attempts + 1) ++ " attempts") }])
      else
        let r := pollGo b maxAttempts fuel (attempts + 1)
        (r.1, r.2.1 + 1, r.2.2)

/-- Poll for an answer within the attempt budget, doubled for file-mode
processing. -/
def pollForAnswer (b : Nat → Except String (String × String)) (maxPollAttempts : Nat)
    (isFileProcessing : Bool) : Except PollError String × Nat × List ProcessingStep :=
  let maxAttempts := if isFileProcessing then maxPollAttempts * 2 else maxPollAttempts
  pollGo b maxAttempts maxAttempts 0

/-! ## Request orchestrator -/

/-- The backend conversation API, with failed network calls as errors.
Create and continue return a conversation-id/request-id pair; getAnswer
returns a status/answer pair and is modelled as a function of the
identifiers (a deterministic environment). -/
structure Backend where
  createConversation : String → List String → Except String (String × String)
  continueConversation : String → String → Except String (String × String)
  getAnswer : String → String → Except String (String × String)

/-- Conversation calls issued by the orchestrator, in order. -/
inductive BackendCall
  | create (message : String) (fileIds : List String)
  | cont (conversationId : String) (message : String)
deriving DecidableEq, Repr

/-- Orchestrator options (defaults applied); the upload options are
represented by the retry budget, the only part this model consumes. -/
structure SmartRequestOptions where
  strategy : String := "auto"
  maxPollAttempts : Nat := 240
  chunkingOptions : Option ChunkOptions := none
  fileUploadMaxRetries : Nat := 3

/-- The orchestrator result. -/
structure SmartRequestResult where
  conversationId : String
  requestId : String
  strategy : String
  answer : String
  totalInputTokens : Nat
  totalResponseTokens : Nat
  totalTime : Nat
  chunksProcessed : Option Nat := none
  fileId : Option String := none
  processingSteps : List ProcessingStep := []
deriving DecidableEq, Repr

/-- A failed audit step carrying an error message. -/
def failStep (name : String) (e : String) : ProcessingStep :=
  { step := name, success := false, error := some e }

/-- The positional marker a chunk message is wrapped with. -/
def formatChunkMessage (chunk : TextChunk) (_originalMessage : String) : String :=
  if chunk.isFirst ∧ chunk.isLast then chunk.content
  else
    let pre :=
      if chunk.isFirst then
        "[This is a large message split into " ++ toString chunk.totalChunks ++
          " parts. Part " ++ toString (chunk.index + 1) ++ "/" ++
          toString chunk.totalChunks ++ "]\n\n"
      else if chunk.isLast then
        "[Continuing from previous parts. Final part " ++ toString (chunk.index + 1) ++
          "/" ++ toString chunk.totalChunks ++ "]\n\n"
      else
        "[Continuing from previous parts. Part " ++ toString (chunk.index + 1) ++
          "/" ++ toString chunk.totalChunks ++ "]\n\n"
    pre ++ chunk.content

/-- The consolidation message of the chunked strategy. -/
def chunkedConsolidationMessage : String :=
  "Please provide a comprehensive summary and response based on all the information provided above."

/-- The instruction sent with an uploaded file. -/
def fileAnalysisMessage : String :=
  "Please analyze and respond to the content in the uploaded file."

/-- The consolidation message of the hybrid strategy. -/
def hybridConsolidationMessage : String :=
  "Please provide a comprehensive response considering both the uploaded file content and the additional information provided."

/-- The lead-in prepended to the hybrid remainder. -/
def hybridContinuationLead : String :=
  "Additionally, please consider this information: "

/-- The output of the chunk loop: the loop state on success (the saved
conversation id, the last request id, the accumulated response-token
estimate) or the thrown error, with the calls issued and audit steps
appended. -/
structure LoopOut where
  result : Except String (Option String × Option String × Nat)
  calls : List BackendCall
  steps : List ProcessingStep

/-- The chunk loop of the chunked strategy: the first chunk creates the
conversation, later chunks continue it on the id saved from the create (the
source's non-null assertion on that id is modelled by a default of the
empty string); each exchange is polled to completion before the next. -/
def chunkLoop (B : Backend) (mpa : Nat) (originalMessage : String) :
    List TextChunk → Option String → Option String → Nat → LoopOut
  | [], conversationId, lastRequestId, totalResponseTokens =>
    ⟨.ok (conversationId, lastRequestId, totalResponseTokens), [], []⟩
  | chunk :: rest, conversationId, _lastRequestId, totalResponseTokens =>
    let chunkMessage := formatChunkMessage chunk originalMessage
    let pair :=
      if chunk.isFirst then
        (B.createConversation chunkMessage [], BackendCall.create chunkMessage [])
      else
        (B.continueConversation (conversationId.getD "") chunkMessage,
         BackendCall.cont (conversationId.getD "") chunkMessage)
    match pair.1 with
    | .error e => ⟨.error e, [pair.2], []⟩
    | .ok response =>
      let conversationId2 := if chunk.isFirst then some response.1 else conversationId
      let chunkStep : ProcessingStep :=
        { step := "Process Chunk " ++ toString (chunk.index + 1), success := true,
          tokens := some chunk.tokens, conversationId := some response.1,
          requestId := some response.2 }
      let poll := pollForAnswer (fun _ => B.getAnswer response.1 response.2) mpa false
      match poll.1 with
      | .error pe => ⟨.error pe.message, [pair.2], chunkStep :: poll.2.2⟩
      | .ok chunkAnswer =>
        let next :=
          chunkLoop B mpa originalMessage rest conversationId2 (some response.2)
            (totalResponseTokens + smartEstimateTokens chunkAnswer)
        ⟨next.result, pair.2 :: next.calls, chunkStep :: poll.2.2 ++ next.steps⟩

/-- The chunked strategy: chunk, drive the chunk loop, then send and poll
one consolidation continuation; any failure is recorded as a failed
Chunked Request step and re-raised. -/
def handleChunkedRequest (B : Backend) (opts : SmartRequestOptions) (message : String) :
    Except String SmartRequestResult × List BackendCall × List ProcessingStep :=
  let chunkOptions := opts.chunkingOptions.getD (calculateOptimalChunkSize message)
  let chunks := chunkText chunkOptions message
  let chunkingStep : ProcessingStep :=
    { step := "Text Chunking", success := true,
      additionalInfo := some ("Created " ++ toString chunks.length ++ " chunks") }
  if chunks.length = 0 then
    (.error "No chunks generated from message", [],
     [chunkingStep, failStep "Chunked Request" "No chunks generated from message"])
  else
    let loop := chunkLoop B opts.maxPollAttempts message chunks none none 0
    match loop.result with
    | .error e =>
      (.error e, loop.calls, chunkingStep :: loop.steps ++ [failStep "Chunked Request" e])
    | .ok acc =>
      let conversationId := acc.1
      let totalResponseTokens := acc.2.2
      let finalCall := BackendCall.cont (conversationId.getD "") chunkedConsolidationMessage
      match B.continueConversation (conversationId.getD "") chunkedConsolidationMessage with
      | .error e =>
        (.error e, loop.calls ++ [finalCall],
         chunkingStep :: loop.steps ++ [failStep "Chunked Request" e])
      | .ok finalResponse =>
        let poll := pollForAnswer
          (fun _ => B.getAnswer finalResponse.1 finalResponse.2) opts.maxPollAttempts false
        match poll.1 with
        | .error pe =>
          (.error pe.message, loop.calls ++ [finalCall],
           chunkingStep :: loop.steps ++ poll.2.2 ++ [failStep "Chunked Request" pe.message])
        | .ok finalAnswer =>
          let finalStep : ProcessingStep :=
            { step := "Final Consolidation", success := true,
              tokens := some (smartEstimateTokens finalAnswer) }
          (.ok { conversationId := conversationId.getD "", requestId := finalResponse.2,
                 strategy := "chunks", answer := finalAnswer, totalInputTokens := 0,
                 totalResponseTokens := totalResponseTokens + smartEstimateTokens finalAnswer,
                 totalTime := 0, chunksProcessed := some chunks.length, fileId := none,
                 processingSteps := [] },
           loop.calls ++ [finalCall], chunkingStep :: loop.steps ++ poll.2.2 ++ [finalStep])

/-- The direct strategy: one create call, one poll to completion. -/
def handleDirectRequest (B : Backend) (opts : SmartRequestOptions) (message : String) :
    Except String SmartRequestResult × List BackendCall × List ProcessingStep :=
  match B.createConversation message [] with
  | .error e => (.error e, [BackendCall.create message []], [failStep "Direct Request" e])
  | .ok response =>
    let createStep : ProcessingStep :=
      { step := "Create Conversation", success := true,
        conversationId := some response.1, requestId := some response.2 }
    let poll := pollForAnswer
      (fun _ => B.getAnswer response.1 response.2) opts.maxPollAttempts false
    match poll.1 with
    | .error pe =>
      (.error pe.message, [BackendCall.create message []],
       createStep :: poll.2.2 ++ [failStep "Direct Request" pe.message])
    | .ok answer =>
      (.ok { conversationId := response.1, requestId := response.2, strategy := "direct",
             answer := answer, totalInputTokens := 0,
             totalResponseTokens := smartEstimateTokens answer,
             totalTime := 0, chunksProcessed := none, fileId := none, processingSteps := [] },
       [BackendCall.create message []], createStep :: poll.2.2)

/-- The file strategy: upload the message, create a conversation referencing
the file id, poll with the doubled budget. -/
def handleFileRequest (B : Backend) (transport : Nat → Except String String)
    (opts : SmartRequestOptions) (message : String) :
    Except String SmartRequestResult × List BackendCall × List ProcessingStep :=
  match uploadTextAsFile transport opts.fileUploadMaxRetries message with
  | .error e => (.error e, [], [failStep "File Request" e])
  | .ok uploadResult =>
    let uploadStep : ProcessingStep :=
      { step := "File Upload", success := true, tokens := some uploadResult.tokens,
        additionalInfo := some ("File ID: " ++ uploadResult.fileId) }
    let call := BackendCall.create fileAnalysisMessage [uploadResult.fileId]
    match B.createConversation fileAnalysisMessage [uploadResult.fileId] with
    | .error e => (.error e, [call], [uploadStep, failStep "File Request" e])
    | .ok response =>
      let convStep : ProcessingStep :=
        { step := "Create Conversation with File", success := true,
          conversationId := some response.1, requestId := some response.2 }
      let poll := pollForAnswer
        (fun _ => B.getAnswer response.1 response.2) opts.maxPollAttempts true
      match poll.1 with
      | .error pe =>
        (.error pe.message, [call],
         uploadStep :: convStep :: poll.2.2 ++ [failStep "File Request" pe.message])
      | .ok answer =>
        (.ok { conversationId := response.1, requestId := response.2, strategy := "file",
               answer := answer, totalInputTokens := 0,
               totalResponseTokens := smartEstimateTokens answer,
               totalTime := 0, chunksProcessed := none, fileId := some uploadResult.fileId,
               processingSteps := [] },
         [call], uploadStep :: convStep :: poll.2.2)

/-- The continuation loop of the hybrid strategy: every remainder chunk is a
continuation on the file conversation, polled to completion, with no
per-chunk audit step and the answers discarded. -/
def hybridChunkLoop (B : Backend) (mpa : Nat) (continueMessage : String) :
    List TextChunk → String →
    Except String Unit × List BackendCall × List ProcessingStep
  | [], _conversationId => (.ok (), [], [])
  | chunk :: rest, conversationId =>
    let chunkMessage := formatChunkMessage chunk continueMessage
    let call := BackendCall.cont conversationId chunkMessage
    match B.continueConversation conversationId chunkMessage with
    | .error e => (.error e, [call], [])
    | .ok response =>
      let poll := pollForAnswer (fun _ => B.getAnswer response.1 response.2) mpa false
      match poll.1 with
      | .error pe => (.error pe.message, [call], poll.2.2)
      | .ok _ =>
        let next := hybridChunkLoop B mpa continueMessage rest conversationId
        (next.1, call :: next.2.1, poll.2.2 ++ next.2.2)

/-- The hybrid strategy: a character-ratio prefix goes through the file
strategy; a non-blank remainder is chunked and sent as continuations,
followed by the hybrid consolidation.  The zero-estimate corner (a division
by zero in the source) is modelled as a zero split point. -/
def handleHybridRequest (B : Backend) (transport : Nat → Except String String)
    (opts : SmartRequestOptions) (message : String) :
    Except String SmartRequestResult × List BackendCall × List ProcessingStep :=
  let tokens := smartEstimateTokens message
  let splitPoint : Nat := if tokens = 0 then 0 else message.length * 200000 / tokens
  let fileContent := jsSlice message 0 splitPoint
  let remainingContent := jsSlice message splitPoint message.length
  match handleFileRequest B transport opts fileContent with
  | (.error e, calls, steps) => (.error e, calls, steps)
  | (.ok fileResult, calls, steps) =>
    if remainingContent.data.all jsWhitespace then
      (.ok { fileResult with strategy := "hybrid" }, calls, steps)
    else
      let continueMessage := hybridContinuationLead ++ remainingContent
      let chunkOptions := opts.chunkingOptions.getD (calculateOptimalChunkSize continueMessage)
      let chunks := chunkText chunkOptions continueMessage
      match hybridChunkLoop B opts.maxPollAttempts continueMessage chunks fileResult.conversationId with
      | (.error e, calls2, steps2) => (.error e, calls ++ calls2, steps ++ steps2)
      | (.ok _, calls2, steps2) =>
        let finalCall := BackendCall.cont fileResult.conversationId hybridConsolidationMessage
        match B.continueConversation fileResult.conversationId hybridConsolidationMessage with
        | .error e => (.error e, calls ++ calls2 ++ [finalCall], steps ++ steps2)
        | .ok finalResponse =>
          let poll := pollForAnswer
            (fun _ => B.getAnswer finalResponse.1 finalResponse.2) opts.maxPollAttempts false
          match poll.1 with
          | .error pe =>
            (.error pe.message, calls ++ calls2 ++ [finalCall], steps ++ steps2 ++ poll.2.2)
          | .ok finalAnswer =>
            let hybridStep : ProcessingStep :=
              { step := "Hybrid Processing", success := true,
                additionalInfo := some ("File + " ++ toString chunks.length ++ " chunks") }
            (.ok { fileResult with
                    strategy := "hybrid", answer := finalAnswer,
                    requestId := finalResponse.2, chunksProcessed := some chunks.length },
             calls ++ calls2 ++ [finalCall], steps ++ steps2 ++ poll.2.2 ++ [hybridStep])

/-- Dispatch on the strategy tag; an unknown tag is an error. -/
def executeStrategy (B : Backend) (transport : Nat → Except String String)
    (opts : SmartRequestOptions) (strategy : String) (message : String) :
    Except String SmartRequestResult × List BackendCall × List ProcessingStep :=
  if strategy = "direct" then handleDirectRequest B opts message
  else if strategy = "chunks" then handleChunkedRequest B opts message
  else if strategy = "file" then handleFileRequest B transport opts message
  else if strategy = "hybrid" then handleHybridRequest B transport opts message
  else (.error ("Unknown strategy: " ++ strategy), [], [])

/-- The orchestrator entry point: resolve the strategy (an explicit override
or the recommendation), record the selection step, dispatch; on success fill
in the input-token estimate and the full audit log, on failure append a
failed Error step and raise the wrapped message. -/
def handleLargeRequest (B : Backend) (transport : Nat → Except String String)
    (opts : SmartRequestOptions) (message : String) :
    Except String SmartRequestResult × List BackendCall × List ProcessingStep :=
  let totalInputTokens := smartEstimateTokens message
  let strategy := if opts.strategy = "auto" then getRecommendedStrategy message else opts.strategy
  let selectionStep : ProcessingStep :=
    { step := "Strategy Selection", success := true, tokens := some totalInputTokens,
      additionalInfo := some ("Selected strategy: " ++ strategy) }
  match executeStrategy B transport opts strategy message with
  | (.ok result, calls, steps) =>
    (.ok { result with
            totalTime := 0, totalInputTokens := totalInputTokens,
            processingSteps := selectionStep :: steps },
     calls, selectionStep :: steps)
  | (.error e, calls, steps) =>
    (.error ("Smart request handling failed: " ++ e), calls,
     selectionStep :: steps ++ [failStep "Error" e])

/-! ## Auxiliary definitions used by the statements -/

/-- The atomic units of a text under a split strategy (character mode has no
unit decomposition). -/
def boundaryUnits : SplitStrategy → String → List String
  | .paragraph, t => jsSplitParagraphs t
  | .sentence, t => jsSplitSentences t
  | .word, t => jsSplitWhitespace t
  | .character, _ => []

/-- The separator associated with a split strategy. -/
def boundarySep : SplitStrategy → String
  | .paragraph => "\n\n"
  | .sentence => " "
  | .word => " "
  | .character => ""

/-- Invariant of the bucketing loop state: an empty current chunk is the
pristine initial state, and a current chunk of two or more units stayed
within the ceiling when it grew. -/
def ChunkStateOk (maxTokensPerChunk : Nat) (seed : Option String) (cur : List String)
    (currentTokens : Nat) : Prop :=
  (cur = [] → seed = none ∧ currentTokens = 0) ∧
  (2 ≤ cur.length → currentTokens ≤ maxTokensPerChunk)

/-- Whether a poll response is a success: the exact status finished together
with a non-empty answer. -/
def isPollSuccess : Except String (String × String) → Bool
  | .ok (st, ans) => st == "finished" && !(ans == "")
  | .error _ => false

/-- Whether a poll response is a transport error. -/
def isPollTransportError : Except String (String × String) → Bool
  | .ok _ => false
  | .error _ => true

/-- A backend whose calls all succeed, built from the response functions. -/
def happyBackend (create : String → List String → String × String)
    (contf : String → String → String × String)
    (ans : String → String → String × String) : Backend :=
  ⟨fun m f => .ok (create m f), fun c m => .ok (contf c m), fun c r => .ok (ans c r)⟩

/-- Spec-side strategy selection, stated directly on an estimated token
count as four half-open intervals, for comparison with the code. -/
def strategyOfEstimate (t : Nat) : String :=
  if t ≤ 115000 then "direct"
  else if t ≤ 200000 then "chunks"
  else if t ≤ 500000 then "file"
  else "hybrid"

/-- The rank of a strategy in the escalation order. -/
def strategyRank (s : String) : Nat :=
  if s = "direct" then 0
  else if s = "chunks" then 1
  else if s = "file" then 2
  else 3

/-! ## Lemmas about the bucketing loop -/

theorem bucketsGo_units_join (est : String → Nat) (maxT ovl : Nat) (sep : String) :
    ∀ (units : List String) (i : Nat) (seed : Option String) (cur : List String)
      (ct sp cp : Nat),
      ((bucketsGo est maxT ovl sep units i seed cur ct sp cp).map RawChunk.units).flatten
        = cur ++ units := by
  intro units
  induction units with
  | nil =>
    intro i seed cur ct sp cp
    by_cases h : seed.isSome ∨ cur ≠ [] <;> simp [bucketsGo, h]
    rcases not_or.mp h with ⟨_, h2⟩
    simp [not_not.mp h2]
  | cons u rest ih =>
    intro i seed cur ct sp cp
    by_cases h : maxT < ct + est u + (if 0 < i then est sep else 0) ∧ (seed.isSome ∨ cur ≠ [])
    · simp only [bucketsGo, if_pos h, List.map_cons, List.flatten_cons]
      rw [ih]
      simp
    · simp only [bucketsGo, if_neg h]
      rw [ih]
      simp

theorem bucketsGo_chunk_bound (est : String → Nat) (maxT ovl : Nat) (sep : String) :
    ∀ (units : List String) (i : Nat) (seed : Option String) (cur : List String)
      (ct sp cp : Nat), ChunkStateOk maxT seed cur ct →
      ∀ b ∈ bucketsGo est maxT ovl sep units i seed cur ct sp cp,
        b.tokens ≤ maxT ∨ b.units.length = 1 := by
  intro units
  induction units with
  | nil =>
    intro i seed cur ct sp cp hok b hb
    by_cases h : seed.isSome ∨ cur ≠ []
    · simp only [bucketsGo, if_pos h, List.mem_singleton] at hb
      subst hb
      match cur, hok with
      | [], hok =>
        rcases h with h | h
        · rcases (hok.1 rfl).1 ▸ h with h
          simp at h
        · simp at h
      | [u], _ => exact Or.inr rfl
      | u :: v :: tail, hok =>
        exact Or.inl (hok.2 (by simp))
    · simp [bucketsGo, if_neg h] at hb
  | cons u rest ih =>
    intro i seed cur ct sp cp hok b hb
    by_cases h : maxT < ct + est u + (if 0 < i then est sep else 0) ∧ (seed.isSome ∨ cur ≠ [])
    · simp only [bucketsGo, if_pos h, List.mem_cons] at hb
      rcases hb with hb | hb
      · subst hb
        match cur, hok with
        | [], hok =>
          rcases h.2 with h2 | h2
          · rcases (hok.1 rfl).1 ▸ h2 with h2
            simp at h2
          · simp at h2
        | [v], _ => exact Or.inr rfl
        | v :: w :: tail, hok =>
          exact Or.inl (hok.2 (by simp))
      · refine ih (i + 1) _ [u] _ _ _ ?_ b hb
        exact ⟨by simp, by simp⟩
    · simp only [bucketsGo, if_neg h] at hb
      refine ih (i + 1) seed (cur ++ [u]) _ _ _ ?_ b hb
      constructor
      · intro hc
        simp at hc
      · intro hlen
        rcases not_and_or.mp h with h2 | h2
        · omega
        · rcases not_or.mp h2 with ⟨_, h3⟩
          have : cur = [] := not_not.mp h3
          subst this
          simp at hlen

theorem mapIdx_content_preserving (f : Nat → PlainChunk → TextChunk)
    (hf : ∀ i c, (f i c).content = c.content) :
    ∀ l : List PlainChunk, (l.mapIdx f).map TextChunk.content = l.map PlainChunk.content := by
  intro l
  induction l generalizing f with
  | nil => simp
  | cons c tail ih =>
    rw [List.mapIdx_cons]
    simp only [List.map_cons, hf]
    rw [ih (fun i => f (i + 1)) (fun i c => hf (i + 1) c)]

/-! ## Claims about the segmenter -/

/-- Claim C3, counterexample: the empty text has estimate 0, below any
ceiling, yet segmenting it returns no segment at all rather than one
segment equal to the text. -/
theorem claim3_counterexample :
    smartEstimateTokens "" = 0 ∧ (0 : Nat) ≤ 115000 ∧
      splitText smartEstimateTokens ⟨115000, 1000, SplitStrategy.paragraph, "", ""⟩ "" = [] :=
  ⟨by with_unfolding_all rfl, by omega, by with_unfolding_all rfl⟩

/-- Claim C3 (amended: the text must not be empty or whitespace-only): for
all text whose estimate fits the configured ceiling, segmenting returns
exactly one segment whose content equals the text, with isFirst and isLast
true, ordinal 0 and segment count 1. -/
theorem claim3_single_chunk (est : String → Nat) (opts : ChunkOptions) (text : String)
    (hblank : text.data.all jsWhitespace = false)
    (hfit : est text ≤ opts.maxTokensPerChunk) :
    splitText est opts text = [⟨text, est text, 0, 1, true, true, 0, text.length⟩] := by
  simp [splitText, hblank, hfit]

/-- Claim C3 witness at a concrete text. -/
theorem claim3_witness :
    splitText smartEstimateTokens ⟨115000, 1000, SplitStrategy.paragraph, "", ""⟩ "hello"
      = [⟨"hello", smartEstimateTokens "hello", 0, 1, true, true, 0, ("hello" : String).length⟩] :=
  claim3_single_chunk smartEstimateTokens ⟨115000, 1000, SplitStrategy.paragraph, "", ""⟩
    "hello" (by decide) (of_decide_eq_true (by with_unfolding_all rfl))

/-- Claim C4, counterexample: with a ceiling of 6 and overlap 4, the second
emitted segment records 8 tokens (overlap extract + separator + unit),
exceeding the ceiling, although its single atomic unit estimates to 4,
within the ceiling — and it is not emitted unmodified: the overlap extract
is spliced in front of the unit. -/
theorem claim4_counterexample :
    bucketBlocks smartEstimateTokens ⟨6, 4, SplitStrategy.paragraph, "", ""⟩
        (jsSplitParagraphs "q8z9 w3k7 r2m6 t5x1\n\na1b2 c3d4 e5f6") "\n\n"
      = [⟨none, ["q8z9 w3k7 r2m6 t5x1"], 5, 0, 19⟩,
         ⟨some "...r2m6 t5x1", ["a1b2 c3d4 e5f6"], 8, 19, 35⟩]
    ∧ 6 < 8
    ∧ smartEstimateTokens "a1b2 c3d4 e5f6" ≤ 6
    ∧ (splitText smartEstimateTokens ⟨6, 4, SplitStrategy.paragraph, "", ""⟩
        "q8z9 w3k7 r2m6 t5x1\n\na1b2 c3d4 e5f6").map TextChunk.content
      = ["q8z9 w3k7 r2m6 t5x1", "...r2m6 t5x1\n\na1b2 c3d4 e5f6"]
    ∧ ("...r2m6 t5x1\n\na1b2 c3d4 e5f6" : String) ≠ "a1b2 c3d4 e5f6" :=
  ⟨by with_unfolding_all rfl, by omega,
   of_decide_eq_true (by with_unfolding_all rfl),
   by with_unfolding_all rfl, by decide⟩

/-- Claim C4 (amended: a segment may exceed the ceiling only when it
consists of exactly one atomic unit — whose count together with the
injected overlap and the counted separator exceeds the ceiling — and such a
segment still carries the overlap extract and any configured wrapping):
every emitted bucket respects the ceiling or holds exactly one unit. -/
theorem claim4_over_budget_chunks (est : String → Nat) (opts : ChunkOptions)
    (units : List String) (sep : String) :
    ∀ b ∈ bucketBlocks est opts units sep,
      b.tokens ≤ opts.maxTokensPerChunk ∨ b.units.length = 1 := by
  intro b hb
  exact bucketsGo_chunk_bound est opts.maxTokensPerChunk opts.overlapTokens sep units
    0 none [] 0 0 0 ⟨fun _ => ⟨rfl, rfl⟩, by simp⟩ b hb

/-- Claim C4 witness: the bound applied to a concrete bucket. -/
theorem claim4_witness :
    (⟨none, ["q8z9 w3k7 r2m6 t5x1"], 5, 0, 19⟩ : RawChunk).tokens ≤ 6 ∨
      (⟨none, ["q8z9 w3k7 r2m6 t5x1"], 5, 0, 19⟩ : RawChunk).units.length = 1 :=
  claim4_over_budget_chunks smartEstimateTokens ⟨6, 4, SplitStrategy.paragraph, "", ""⟩
    (jsSplitParagraphs "q8z9 w3k7 r2m6 t5x1\n\na1b2 c3d4 e5f6") "\n\n"
    ⟨none, ["q8z9 w3k7 r2m6 t5x1"], 5, 0, 19⟩ (of_decide_eq_true (by with_unfolding_all rfl))

/-- Claim C8, counterexample: a whitespace-only text over the ceiling is in
the claim's domain (estimate 2 over a ceiling of 1), has one paragraph
unit, yet segmenting returns no segments at all, dropping the unit. -/
theorem claim8_counterexample :
    splitText smartEstimateTokens ⟨1, 0, SplitStrategy.paragraph, "", ""⟩ "        " = []
    ∧ 1 < smartEstimateTokens "        "
    ∧ jsSplitParagraphs "        " = ["        "] :=
  ⟨by with_unfolding_all rfl, of_decide_eq_true (by with_unfolding_all rfl), by decide⟩

/-- Claim C8 (amended: the text must not be empty or whitespace-only): for
non-blank text over the ceiling under a unit-based boundary, the unit
blocks of the emitted segments concatenate to exactly the text's atomic
unit sequence — no unit dropped, duplicated or reordered — and every
segment's content is the configured wrapping around the optional overlap
extract and its unit block joined with the separator. -/
theorem claim8_reconstruction (est : String → Nat) (opts : ChunkOptions) (text : String)
    (hstrat : opts.splitStrategy ≠ SplitStrategy.character)
    (hblank : text.data.all jsWhitespace = false)
    (hbig : opts.maxTokensPerChunk < est text) :
    ((bucketBlocks est opts (boundaryUnits opts.splitStrategy text)
        (boundarySep opts.splitStrategy)).map RawChunk.units).flatten
      = boundaryUnits opts.splitStrategy text
    ∧ (splitText est opts text).map TextChunk.content
      = (bucketBlocks est opts (boundaryUnits opts.splitStrategy text)
          (boundarySep opts.splitStrategy)).map
            (fun b => addPrefixSuffix opts (b.joined (boundarySep opts.splitStrategy))) := by
  constructor
  · exact bucketsGo_units_join est opts.maxTokensPerChunk opts.overlapTokens
      (boundarySep opts.splitStrategy) (boundaryUnits opts.splitStrategy text) 0 none [] 0 0 0
  · have hsplit : splitText est opts text
        = (performSplit est opts text).mapIdx (withMeta (performSplit est opts text).length) := by
      simp [splitText, hblank, Nat.not_le.mpr hbig]
    rw [hsplit, mapIdx_content_preserving _ (fun i c => rfl)]
    have hps : performSplit est opts text
        = groupIntoBuckets est opts (boundaryUnits opts.splitStrategy text)
            (boundarySep opts.splitStrategy) := by
      cases h : opts.splitStrategy <;>
        simp only [performSplit, boundaryUnits, boundarySep, h] <;> first | rfl | exact absurd h hstrat
    rw [hps, groupIntoBuckets, List.map_map]
    rfl

/-- Claim C8 witness at a concrete text over the ceiling. -/
theorem claim8_witness :
    ((bucketBlocks smartEstimateTokens ⟨6, 4, SplitStrategy.paragraph, "", ""⟩
        (jsSplitParagraphs "q8z9 w3k7 r2m6 t5x1\n\na1b2 c3d4 e5f6") "\n\n").map RawChunk.units).flatten
      = jsSplitParagraphs "q8z9 w3k7 r2m6 t5x1\n\na1b2 c3d4 e5f6"
    ∧ (splitText smartEstimateTokens ⟨6, 4, SplitStrategy.paragraph, "", ""⟩
        "q8z9 w3k7 r2m6 t5x1\n\na1b2 c3d4 e5f6").map TextChunk.content
      = (bucketBlocks smartEstimateTokens ⟨6, 4, SplitStrategy.paragraph, "", ""⟩
          (jsSplitParagraphs "q8z9 w3k7 r2m6 t5x1\n\na1b2 c3d4 e5f6") "\n\n").map
            (fun b => addPrefixSuffix ⟨6, 4, SplitStrategy.paragraph, "", ""⟩ (b.joined "\n\n")) :=
  claim8_reconstruction smartEstimateTokens ⟨6, 4, SplitStrategy.paragraph, "", ""⟩
    "q8z9 w3k7 r2m6 t5x1\n\na1b2 c3d4 e5f6" (by decide) (by decide)
    (of_decide_eq_true (by with_unfolding_all rfl))

/-- Claim C10: buckets are computed from the ceiling and overlap alone —
never from the wrapping — so each emitted segment's content is exactly the
configured literals around the joined body while its recorded token count
is that of the body (units, separators, overlap); concretely, a non-empty
literal makes the first segment's true estimate 12 exceed the ceiling 6
although 5 tokens are recorded. -/
theorem claim10_prefix_suffix :
    (∀ (est : String → Nat) (opts : ChunkOptions) (units : List String) (sep : String),
      bucketBlocks est opts units sep
        = bucketBlocks est
            ⟨opts.maxTokensPerChunk, opts.overlapTokens, opts.splitStrategy, "", ""⟩ units sep
      ∧ (groupIntoBuckets est opts units sep).map PlainChunk.content
        = (bucketBlocks est opts units sep).map
            (fun b => opts.chunkPre ++ b.joined sep ++ opts.chunkSuf)
      ∧ (groupIntoBuckets est opts units sep).map PlainChunk.tokens
        = (bucketBlocks est opts units sep).map RawChunk.tokens)
    ∧ ((splitText smartEstimateTokens
          ⟨6, 4, SplitStrategy.paragraph, "ZxQw8 k2j4 h6g8 f0d1 s3a5 ", ""⟩
          "q8z9 w3k7 r2m6 t5x1\n\na1b2 c3d4 e5f6").head?
        = some ⟨"ZxQw8 k2j4 h6g8 f0d1 s3a5 q8z9 w3k7 r2m6 t5x1", 5, 0, 2, true, false, 0, 19⟩
      ∧ (5 : Nat) ≤ 6
      ∧ 6 < smartEstimateTokens "ZxQw8 k2j4 h6g8 f0d1 s3a5 q8z9 w3k7 r2m6 t5x1") := by
  refine ⟨fun est opts units sep => ⟨rfl, ?_, ?_⟩, by with_unfolding_all rfl, by omega,
    of_decide_eq_true (by with_unfolding_all rfl)⟩
  · rw [groupIntoBuckets, List.map_map]
    rfl
  · rw [groupIntoBuckets, List.map_map]
    rfl

/-! ## Lemmas about the poller -/

theorem isPollSuccess_ok_false_iff (st ans : String) :
    isPollSuccess (.ok (st, ans)) = false ↔ ¬(st = "finished" ∧ ans ≠ "") := by
  simp only [isPollSuccess]
  constructor
  · intro h hcontra
    rw [hcontra.1] at h
    simp [hcontra.2] at h
  · intro h
    by_cases hst : st = "finished"
    · have hans : ans = "" := by
        by_contra hne
        exact h ⟨hst, hne⟩
      simp [hst, hans]
    · simp [hst]

theorem pollForAnswer_first_success (b : Nat → Except String (String × String))
    (mpa : Nat) (isFile : Bool) (st a : String)
    (hb : b 0 = .ok (st, a)) (hst : st = "finished") (ha : a ≠ "")
    (hmpa : 1 ≤ (if isFile then mpa * 2 else mpa)) :
    pollForAnswer b mpa isFile
      = (.ok a, 1,
         [{ step := "Poll for Answer", success := true,
            additionalInfo := some ("Completed after " ++ toString 1 ++ " attempts") }]) := by
  unfold pollForAnswer
  obtain ⟨f, hf⟩ :=
    Nat.exists_eq_succ_of_ne_zero (Nat.one_le_iff_ne_zero.mp hmpa)
  rw [hf]
  simp [pollGo, hb, hst, ha]

theorem pollGo_ok_iff (b : Nat → Except String (String × String)) (maxA : Nat) (a : String) :
    ∀ (fuel attempts : Nat), attempts + fuel = maxA →
      ((pollGo b maxA fuel attempts).1 = .ok a ↔
        ∃ i, attempts ≤ i ∧ i < maxA ∧ b i = .ok ("finished", a) ∧ a ≠ "" ∧
          ∀ j, attempts ≤ j → j < i → isPollSuccess (b j) = false) := by
  intro fuel
  induction fuel with
  | zero =>
    intro attempts h
    simp only [pollGo]
    constructor
    · intro hcontra
      exact absurd hcontra (by simp)
    · rintro ⟨i, h1, h2, _⟩
      omega
  | succ f ih =>
    intro attempts h
    cases hb : b attempts with
    | ok p =>
      obtain ⟨st, ans⟩ := p
      by_cases hc : st = "finished" ∧ ans ≠ ""
      · simp only [pollGo, hb, if_pos hc]
        constructor
        · intro hok
          simp only [Except.ok.injEq] at hok
          refine ⟨attempts, le_refl _, by omega, ?_, hok ▸ hc.2, ?_⟩
          · rw [hb, hc.1, hok]
          · intro j hj1 hj2
            omega
        · rintro ⟨i, hi1, hi2, hbi, ha2, hprev⟩
          by_cases hia : i = attempts
          · subst hia
            rw [hb] at hbi
            simp only [Except.ok.injEq, Prod.mk.injEq] at hbi
            simp [hbi.2]
          · have hlt : attempts < i := lt_of_le_of_ne hi1 (Ne.symm hia)
            have hfalse := hprev attempts (le_refl _) hlt
            rw [hb, isPollSuccess_ok_false_iff] at hfalse
            exact absurd ⟨hc.1, hc.2⟩ hfalse
      · simp only [pollGo, hb, if_neg hc]
        rw [ih (attempts + 1) (by omega)]
        constructor
        · rintro ⟨i, hi1, hi2, hbi, ha2, hprev⟩
          refine ⟨i, by omega, hi2, hbi, ha2, ?_⟩
          intro j hj1 hj2
          by_cases hja : j = attempts
          · subst hja
            rw [hb]
            exact (isPollSuccess_ok_false_iff st ans).mpr hc
          · exact hprev j (by omega) hj2
        · rintro ⟨i, hi1, hi2, hbi, ha2, hprev⟩
          have hia : i ≠ attempts := by
            intro he
            subst he
            rw [hb] at hbi
            simp only [Except.ok.injEq, Prod.mk.injEq] at hbi
            exact hc ⟨hbi.1, hbi.2 ▸ ha2⟩
          refine ⟨i, by omega, hi2, hbi, ha2, fun j hj1 hj2 => hprev j (by omega) hj2⟩
    | error m =>
      by_cases hm : maxA - 1 ≤ attempts
      · simp only [pollGo, hb, if_pos hm]
        constructor
        · intro h2
          exact absurd h2 (by simp)
        · rintro ⟨i, hi1, hi2, hbi, _, _⟩
          have : i = attempts := by omega
          subst this
          rw [hb] at hbi
          exact absurd hbi (by simp)
      · simp only [pollGo, hb, if_neg hm]
        rw [ih (attempts + 1) (by omega)]
        constructor
        · rintro ⟨i, hi1, hi2, hbi, ha2, hprev⟩
          refine ⟨i, by omega, hi2, hbi, ha2, ?_⟩
          intro j hj1 hj2
          by_cases hja : j = attempts
          · subst hja
            rw [hb]
            rfl
          · exact hprev j (by omega) hj2
        · rintro ⟨i, hi1, hi2, hbi, ha2, hprev⟩
          have hia : i ≠ attempts := by
            intro he
            subst he
            rw [hb] at hbi
            exact absurd hbi (by simp)
          refine ⟨i, by omega, hi2, hbi, ha2, fun j hj1 hj2 => hprev j (by omega) hj2⟩

theorem pollGo_timeout_iff (b : Nat → Except String (String × String)) (maxA n : Nat) :
    ∀ (fuel attempts : Nat), attempts + fuel = maxA →
      ((pollGo b maxA fuel attempts).1 = .error (.timeout n) ↔
        (n = maxA ∧ (∀ i, attempts ≤ i → i < maxA → isPollSuccess (b i) = false) ∧
          (∀ m, maxA = m + 1 → attempts ≤ m → isPollTransportError (b m) = false))) := by
  intro fuel
  induction fuel with
  | zero =>
    intro attempts h
    simp only [pollGo]
    constructor
    · intro heq
      simp only [Except.error.injEq, PollError.timeout.injEq] at heq
      exact ⟨by omega, fun i h1 h2 => absurd h2 (by omega),
        fun m h1 h2 => absurd h2 (by omega)⟩
    · rintro ⟨h1, _, _⟩
      simp only [Except.error.injEq, PollError.timeout.injEq]
      omega
  | succ f ih =>
    intro attempts h
    cases hb : b attempts with
    | ok p =>
      obtain ⟨st, ans⟩ := p
      by_cases hc : st = "finished" ∧ ans ≠ ""
      · simp only [pollGo, hb, if_pos hc]
        constructor
        · intro h2
          exact absurd h2 (by simp)
        · rintro ⟨h1, h2, h3⟩
          have hfalse := h2 attempts (le_refl _) (by omega)
          rw [hb, isPollSuccess_ok_false_iff] at hfalse
          exact absurd ⟨hc.1, hc.2⟩ hfalse
      · simp only [pollGo, hb, if_neg hc]
        rw [ih (attempts + 1) (by omega)]
        constructor
        · rintro ⟨h1, h2, h3⟩
          refine ⟨h1, ?_, ?_⟩
          · intro i hi1 hi2
            by_cases hia : i = attempts
            · subst hia
              rw [hb]
              exact (isPollSuccess_ok_false_iff st ans).mpr hc
            · exact h2 i (by omega) hi2
          · intro m hm1 hm2
            by_cases hma : m = attempts
            · subst hma
              rw [hb]
              rfl
            · exact h3 m hm1 (by omega)
        · rintro ⟨h1, h2, h3⟩
          exact ⟨h1, fun i hi1 hi2 => h2 i (by omega) hi2,
            fun m hm1 hm2 => h3 m hm1 (by omega)⟩
    | error m0 =>
      by_cases hm : maxA - 1 ≤ attempts
      · simp only [pollGo, hb, if_pos hm]
        constructor
        · intro h2
          exact absurd h2 (by simp)
        · rintro ⟨h1, h2, h3⟩
          have hma : maxA = attempts + 1 := by omega
          have := h3 attempts hma (le_refl _)
          rw [hb] at this
          simp [isPollTransportError] at this
      · simp only [pollGo, hb, if_neg hm]
        rw [ih (attempts + 1) (by omega)]
        constructor
        · rintro ⟨h1, h2, h3⟩
          refine ⟨h1, ?_, ?_⟩
          · intro i hi1 hi2
            by_cases hia : i = attempts
            · subst hia
              rw [hb]
              rfl
            · exact h2 i (by omega) hi2
          · intro m2 hm1 hm2
            exact h3 m2 hm1 (by omega)
        · rintro ⟨h1, h2, h3⟩
          refine ⟨h1, fun i hi1 hi2 => h2 i (by omega) hi2, ?_⟩
          intro m2 hm1 hm2
          by_cases hma : m2 = attempts
          · subst hma
            exact absurd hm1 (by omega)
          · exact h3 m2 hm1 (by omega)

theorem pollGo_stub_run (b : Nat → Except String (String × String)) (maxA : Nat)
    (hstub : ∀ i, isPollSuccess (b i) = false ∧ isPollTransportError (b i) = false) :
    ∀ (fuel attempts : Nat),
      pollGo b maxA fuel attempts
        = (.error (.timeout (attempts + fuel)), fuel,
           [{ step := "Poll for Answer", success := false,
              error := some "Timeout waiting for answer",
              additionalInfo :=
                some ("Timed out after " ++ toString (attempts + fuel) ++ " attempts") }]) := by
  intro fuel
  induction fuel with
  | zero =>
    intro attempts
    simp [pollGo]
  | succ f ih =>
    intro attempts
    cases hb : b attempts with
    | ok p =>
      obtain ⟨st, ans⟩ := p
      have h1 := (hstub attempts).1
      rw [hb, isPollSuccess_ok_false_iff] at h1
      simp only [pollGo, hb, if_neg h1]
      rw [ih (attempts + 1)]
      have harith : attempts + 1 + f = attempts + (f + 1) := by omega
      rw [harith]
    | error m =>
      have h2 := (hstub attempts).2
      rw [hb] at h2
      simp [isPollTransportError] at h2

/-! ## Claims about the poller -/

/-- Claim C5, counterexample: a backend that always reports the status done
with a non-empty answer never satisfies the orchestrator's poller, which
requires the exact status finished: the attempt budget is exhausted and the
timeout error is raised instead of returning the answer. -/
theorem claim5_counterexample :
    (pollForAnswer (fun _ => .ok ("done", "X")) 2 false).1 = .error (.timeout 2)
    ∧ (pollForAnswer (fun _ => .ok ("done", "X")) 2 false).2.1 = 2 :=
  ⟨rfl, rfl⟩

/-- Claim C5 (amended: the orchestrator's completion poller succeeds exactly
when the reported status is the exact string finished — not done or
completed — and the answer is non-empty; earlier non-success responses,
including tolerated transport errors, do not stop it): the poll returns an
answer precisely when some attempt within the budget reports finished with
that non-empty answer and no earlier attempt was a success. -/
theorem claim5_poll_success_iff (b : Nat → Except String (String × String))
    (maxPollAttempts : Nat) (isFileProcessing : Bool) (a : String) :
    (pollForAnswer b maxPollAttempts isFileProcessing).1 = .ok a ↔
      ∃ i, i < (if isFileProcessing then maxPollAttempts * 2 else maxPollAttempts) ∧
        b i = .ok ("finished", a) ∧ a ≠ "" ∧
        ∀ j, j < i → isPollSuccess (b j) = false := by
  rw [pollForAnswer, pollGo_ok_iff b _ a _ 0 (by omega)]
  constructor
  · rintro ⟨i, _, hi2, hbi, ha, hprev⟩
    exact ⟨i, hi2, hbi, ha, fun j hj => hprev j (by omega) hj⟩
  · rintro ⟨i, hi2, hbi, ha, hprev⟩
    exact ⟨i, by omega, hi2, hbi, ha, fun j _ hj => hprev j hj⟩

/-- Claim C5 witness: a first-attempt finished answer is returned. -/
theorem claim5_witness :
    (pollForAnswer (fun _ => .ok ("finished", "X")) 1 false).1 = .ok "X" :=
  (claim5_poll_success_iff (fun _ => .ok ("finished", "X")) 1 false "X").mpr
    ⟨0, by decide, rfl, by decide, fun j hj => absurd hj (Nat.not_lt_zero j)⟩

/-- Claim C6, counterexample: a backend whose every status query raises a
transport error exhausts the budget of 2 after exactly 2 queries without a
finished answer, yet the raised error is the re-raised transport error of
the final attempt, not the poll-timeout error — refuting the if-and-only-if
as stated. -/
theorem claim6_counterexample :
    (pollForAnswer (fun _ => .error "ECONNRESET") 2 false).1
      = .error (.transport "ECONNRESET")
    ∧ (pollForAnswer (fun _ => .error "ECONNRESET") 2 false).2.1 = 2
    ∧ PollError.transport "ECONNRESET" ≠ PollError.timeout 2 :=
  ⟨rfl, rfl, by decide⟩

/-- Claim C6 (amended: the poll-timeout error, whose message carries the
attempt count, is raised iff every attempt in the budget — doubled for
file-mode polls — returned a non-success response and the final attempt did
not itself raise a transport error, which would be re-raised instead; a
stub that never finishes and never throws causes it after exactly
maxAttempts status queries). -/
theorem claim6_poll_timeout (b : Nat → Except String (String × String))
    (mpa : Nat) (isFile : Bool) (n : Nat) :
    ((pollForAnswer b mpa isFile).1 = .error (.timeout n) ↔
      (n = (if isFile then mpa * 2 else mpa)
        ∧ (∀ i < (if isFile then mpa * 2 else mpa), isPollSuccess (b i) = false)
        ∧ (∀ m, (if isFile then mpa * 2 else mpa) = m + 1 →
            isPollTransportError (b m) = false)))
    ∧ ((∀ i, isPollSuccess (b i) = false ∧ isPollTransportError (b i) = false) →
        (pollForAnswer b mpa isFile).1
            = .error (.timeout (if isFile then mpa * 2 else mpa))
          ∧ (pollForAnswer b mpa isFile).2.1 = (if isFile then mpa * 2 else mpa))
    ∧ PollError.message (.timeout (if isFile then mpa * 2 else mpa))
        = "Timeout waiting for answer after "
            ++ toString (if isFile then mpa * 2 else mpa) ++ " attempts" := by
  refine ⟨?_, ?_, rfl⟩
  · rw [pollForAnswer, pollGo_timeout_iff b _ n _ 0 (by omega)]
    constructor
    · rintro ⟨h1, h2, h3⟩
      exact ⟨h1, fun i hi => h2 i (by omega) hi, fun m hm => h3 m hm (by omega)⟩
    · rintro ⟨h1, h2, h3⟩
      exact ⟨h1, fun i _ hi => h2 i hi, fun m hm _ => h3 m hm⟩
  · intro hstub
    rw [pollForAnswer, pollGo_stub_run b _ hstub _ 0, Nat.zero_add]
    exact ⟨rfl, rfl⟩

/-- Claim C6 witness: a never-finishing, never-throwing stub times out after
exactly the budget of 2 status queries. -/
theorem claim6_witness :
    (pollForAnswer (fun _ => .ok ("processing", "")) 2 false).1 = .error (.timeout 2)
    ∧ (pollForAnswer (fun _ => .ok ("processing", "")) 2 false).2.1 = 2 :=
  (claim6_poll_timeout (fun _ => .ok ("processing", "")) 2 false 2).2.1
    (fun _ => ⟨rfl, rfl⟩)

/-! ## Claim about the upload retry loop -/

theorem uploadGo_all_fail (transport : Nat → Except String String) (errs : Nat → String)
    (herr : ∀ i, transport i = .error (errs i)) (maxRetries : Nat)
    (hmr : 1 ≤ maxRetries) :
    ∀ (fuel attempt : Nat), attempt + fuel = maxRetries + 1 → 1 ≤ attempt →
      uploadGo transport maxRetries fuel attempt
          (if attempt = 1 then none else some (errs (attempt - 1)))
        = ⟨.error (uploadFailMsg maxRetries (some (errs maxRetries))), fuel,
           (List.range' attempt (maxRetries - attempt)).map backoffDelay⟩ := by
  intro fuel
  induction fuel with
  | zero =>
    intro attempt h h1
    have h2 : attempt = maxRetries + 1 := by omega
    subst h2
    rw [if_neg (by omega)]
    have h3 : maxRetries + 1 - 1 = maxRetries := by omega
    rw [h3]
    have h4 : maxRetries - (maxRetries + 1) = 0 := by omega
    rw [h4]
    rfl
  | succ f ih =>
    intro attempt h h1
    simp only [uploadGo, herr attempt]
    by_cases hlt : attempt < maxRetries
    · rw [if_pos hlt]
      have hnext := ih (attempt + 1) (by omega) (by omega)
      rw [if_neg (by omega)] at hnext
      have : attempt + 1 - 1 = attempt := by omega
      rw [this] at hnext
      rw [hnext]
      have hr : maxRetries - attempt = (maxRetries - (attempt + 1)) + 1 := by omega
      rw [hr, List.range'_succ]
      rfl
    · rw [if_neg hlt]
      have hma : attempt = maxRetries := by
        rcases Nat.lt_or_ge maxRetries attempt with h2 | h2
        · omega
        · omega
      subst hma
      have hf : f = 0 := by omega
      subst hf
      simp [List.range']

/-- Claim C7: the upload transport is attempted up to maxRetries times with
backoff min(1000·2^(attempt-1), 10000) ms between consecutive attempts — a
transport failing twice then succeeding makes the upload succeed on the 3rd
attempt with sleeps of 1000 and 2000 ms, and a transport failing every time
raises the upload-failed error wrapping the last error after exactly
maxRetries attempts. -/
theorem claim7_upload_retry (transport : Nat → Except String String)
    (e1 e2 f : String) (errs : Nat → String) (maxRetries : Nat) :
    ((transport 1 = .error e1 → transport 2 = .error e2 → transport 3 = .ok f →
        uploadWithRetry transport 3 = ⟨.ok f, 3, [1000, 2000]⟩))
    ∧ ((∀ i, transport i = .error (errs i)) → 1 ≤ maxRetries →
        uploadWithRetry transport maxRetries
          = ⟨.error ("Upload failed after " ++ toString maxRetries ++ " attempts: "
                ++ errs maxRetries),
             maxRetries,
             (List.range' 1 (maxRetries - 1)).map backoffDelay⟩) := by
  constructor
  · intro h1 h2 h3
    show uploadGo transport 3 3 1 none = _
    simp [uploadGo, h1, h2, h3, backoffDelay]
  · intro herr h1
    have hrun := uploadGo_all_fail transport errs herr maxRetries h1 maxRetries 1
      (by omega) (by omega)
    rw [if_pos rfl] at hrun
    calc uploadWithRetry transport maxRetries
        = uploadGo transport maxRetries maxRetries 1 none := rfl
      _ = _ := hrun

/-- Claim C7 witness: a transport failing twice then succeeding, and one
always failing, at budget 3. -/
theorem claim7_witness :
    uploadWithRetry (fun i => if i ≤ 2 then .error ("e" ++ toString i) else .ok "fid") 3
      = ⟨.ok "fid", 3, [1000, 2000]⟩
    ∧ uploadWithRetry (fun i => .error ("e" ++ toString i)) 3
      = ⟨.error ("Upload failed after " ++ toString 3 ++ " attempts: " ++ ("e" ++ toString 3)),
         3, (List.range' 1 2).map backoffDelay⟩ :=
  ⟨(claim7_upload_retry (fun i => if i ≤ 2 then .error ("e" ++ toString i) else .ok "fid")
      ("e" ++ toString 1) ("e" ++ toString 2) "fid" (fun i => "e" ++ toString i) 3).1
      rfl rfl rfl,
   (claim7_upload_retry (fun i => .error ("e" ++ toString i))
      "" "" "" (fun i => "e" ++ toString i) 3).2 (fun i => rfl) (by omega)⟩

/-! ## Claim about the strategy selector -/

/-- Claim C2: the recommended strategy is the estimated token count pushed
through four half-open, non-overlapping, gap-free intervals covering the
whole token axis — at most 115000 is direct, then chunks up to 200000, then
file up to 500000, then hybrid — and the selection is monotone in the
estimate. -/
theorem claim2_strategy_intervals :
    (∀ text : String, getRecommendedStrategy text = strategyOfEstimate (smartEstimateTokens text))
    ∧ (∀ t : Nat,
        (strategyOfEstimate t = "direct" ↔ t ≤ 115000)
        ∧ (strategyOfEstimate t = "chunks" ↔ 115000 < t ∧ t ≤ 200000)
        ∧ (strategyOfEstimate t = "file" ↔ 200000 < t ∧ t ≤ 500000)
        ∧ (strategyOfEstimate t = "hybrid" ↔ 500000 < t))
    ∧ (∀ t u : Nat, t ≤ u →
        strategyRank (strategyOfEstimate t) ≤ strategyRank (strategyOfEstimate u)) := by
  refine ⟨fun text => rfl, fun t => ?_, fun t u h => ?_⟩
  · unfold strategyOfEstimate
    split_ifs with h1 h2 h3 <;>
      refine ⟨?_, ?_, ?_, ?_⟩ <;> constructor <;> intro hx <;>
        first
          | omega
          | (exfalso; revert hx; decide)
          | rfl
          | (exact absurd hx (by omega))
  · unfold strategyOfEstimate
    split_ifs <;> first | omega | decide

/-- Claim C2 witness: monotonicity applied at two concrete estimates. -/
theorem claim2_witness :
    strategyRank (strategyOfEstimate 100) ≤ strategyRank (strategyOfEstimate 300000) :=
  claim2_strategy_intervals.2.2 100 300000 (by omega)

/-! ## Claims about the orchestrator -/

set_option maxHeartbeats 2000000 in
/-- Claim C9, counterexample: with the direct strategy and a backend whose
create call fails with the message boom, the orchestrator re-raises an
error whose message is exactly the wrapped underlying message — it contains
neither the name of the failed step, nor the strategy in effect, nor any
token count (no digit at all). -/
theorem claim9_counterexample :
    (handleLargeRequest
        ⟨fun _ _ => .error "boom", fun _ _ => .error "x", fun _ _ => .error "x"⟩
        (fun _ => .error "x") ⟨"direct", 2, none, 3⟩ "hi").1
      = .error "Smart request handling failed: boom"
    ∧ containsSeq "Direct Request".data "Smart request handling failed: boom".data = false
    ∧ containsSeq "direct".data "Smart request handling failed: boom".data = false
    ∧ "Smart request handling failed: boom".data.all (fun c => !jsDigit c) = true :=
  ⟨by with_unfolding_all rfl, by decide, by decide, by decide⟩


/-- Claim C9 (amended: when the selected strategy's execution fails with
some message, the orchestrator aborts, appends one failed ProcessingStep
named Error carrying that message after the steps recorded so far, and
raises a new error whose message is the underlying message wrapped in a
fixed harness text; the raised error does not carry the failing step's
name, the strategy, or token counts — those live only in the audit log). -/
theorem claim9_error_wrapping (B : Backend) (transport : Nat → Except String String)
    (opts : SmartRequestOptions) (message e : String) (calls : List BackendCall)
    (steps : List ProcessingStep)
    (hexec : executeStrategy B transport opts
        (if opts.strategy = "auto" then getRecommendedStrategy message else opts.strategy)
        message = (.error e, calls, steps)) :
    handleLargeRequest B transport opts message
      = (.error ("Smart request handling failed: " ++ e), calls,
         { step := "Strategy Selection", success := true,
           tokens := some (smartEstimateTokens message),
           additionalInfo := some ("Selected strategy: "
             ++ (if opts.strategy = "auto" then getRecommendedStrategy message
                 else opts.strategy)) }
           :: steps ++ [failStep "Error" e]) := by
  simp only [handleLargeRequest]
  rw [hexec]

/-- Claim C9 witness: the wrapping applied at the counterexample input. -/
theorem claim9_witness :
    handleLargeRequest
        ⟨fun _ _ => .error "boom", fun _ _ => .error "x", fun _ _ => .error "x"⟩
        (fun _ => .error "x") ⟨"direct", 2, none, 3⟩ "hi"
      = (.error ("Smart request handling failed: " ++ "boom"),
         [BackendCall.create "hi" []],
         { step := "Strategy Selection", success := true,
           tokens := some (smartEstimateTokens "hi"),
           additionalInfo := some ("Selected strategy: " ++ "direct") }
           :: [failStep "Direct Request" "boom"] ++ [failStep "Error" "boom"]) :=
  claim9_error_wrapping
    ⟨fun _ _ => .error "boom", fun _ _ => .error "x", fun _ _ => .error "x"⟩
    (fun _ => .error "x") ⟨"direct", 2, none, 3⟩ "hi" "boom"
    [BackendCall.create "hi" []] [failStep "Direct Request" "boom"] rfl

/-! ## Lemmas for the chunked flow -/

theorem happyBackend_create (create : String → List String → String × String)
    (contf ans : String → String → String × String) (m : String) (f : List String) :
    (happyBackend create contf ans).createConversation m f = .ok (create m f) := rfl

theorem happyBackend_cont (create : String → List String → String × String)
    (contf ans : String → String → String × String) (c m : String) :
    (happyBackend create contf ans).continueConversation c m = .ok (contf c m) := rfl

theorem happyBackend_getAnswer (create : String → List String → String × String)
    (contf ans : String → String → String × String) (c r : String) :
    (happyBackend create contf ans).getAnswer c r = .ok (ans c r) := rfl

theorem mapIdx_shift_isFirst (n : Nat) :
    ∀ (l : List PlainChunk) (k : Nat) (c : TextChunk),
      c ∈ l.mapIdx (fun i pc => withMeta n (i + k + 1) pc) → c.isFirst = false := by
  intro l
  induction l with
  | nil =>
    intro k c hc
    simp at hc
  | cons p tail ih =>
    intro k c hc
    rw [List.mapIdx_cons] at hc
    rcases List.mem_cons.mp hc with hc | hc
    · subst hc
      simp [withMeta]
    · have hfun : (fun i => (fun i pc => withMeta n (i + k + 1) pc) (i + 1))
          = (fun i pc => withMeta n (i + (k + 1) + 1) pc) := by
        funext i pc
        show withMeta n (i + 1 + k + 1) pc = withMeta n (i + (k + 1) + 1) pc
        congr 1
        omega
      rw [hfun] at hc
      exact ih (k + 1) c hc

theorem splitText_first_flags (est : String → Nat) (opts : ChunkOptions) (text : String)
    (c0 : TextChunk) (crest : List TextChunk)
    (hchunks : splitText est opts text = c0 :: crest) :
    c0.isFirst = true ∧ ∀ c ∈ crest, c.isFirst = false := by
  unfold splitText at hchunks
  by_cases hws : text.data.all jsWhitespace
  · simp [hws] at hchunks
  · rw [if_neg (by simp [hws])] at hchunks
    by_cases hfit : est text ≤ opts.maxTokensPerChunk
    · rw [if_pos hfit] at hchunks
      injection hchunks with h1 h2
      constructor
      · rw [← h1]
      · intro c hc
        rw [← h2] at hc
        simp at hc
    · rw [if_neg hfit] at hchunks
      simp only at hchunks
      cases hl : performSplit est opts text with
      | nil =>
        rw [hl] at hchunks
        simp at hchunks
      | cons p tail =>
        rw [hl, List.mapIdx_cons] at hchunks
        injection hchunks with h1 h2
        constructor
        · rw [← h1]
          rfl
        · intro c hc
          rw [← h2] at hc
          exact mapIdx_shift_isFirst (p :: tail).length tail 0 c hc

theorem chunkLoop_all_cont
    (create : String → List String → String × String)
    (contf : String → String → String × String)
    (ans : String → String → String × String)
    (hAns : ∀ c r, (ans c r).1 = "finished" ∧ (ans c r).2 ≠ "")
    (mpa : Nat) (hmpa : 1 ≤ mpa) (msg : String) (cid : String) :
    ∀ (rest : List TextChunk) (req : Option String) (tot : Nat),
      (∀ c ∈ rest, c.isFirst = false) →
      ∃ req2 tot2,
        (chunkLoop (happyBackend create contf ans) mpa msg rest (some cid) req tot).result
            = .ok (some cid, req2, tot2)
        ∧ (chunkLoop (happyBackend create contf ans) mpa msg rest (some cid) req tot).calls
            = rest.map (fun c => BackendCall.cont cid (formatChunkMessage c msg)) := by
  intro rest
  induction rest with
  | nil =>
    intro req tot _
    exact ⟨req, tot, rfl, rfl⟩
  | cons c tail ih =>
    intro req tot hrest
    have hc : c.isFirst = false := hrest c (List.mem_cons_self _ _)
    have htail : ∀ x ∈ tail, x.isFirst = false :=
      fun x hx => hrest x (List.mem_cons_of_mem _ hx)
    have hpoll := pollForAnswer_first_success
      (fun _ => .ok (ans (contf cid (formatChunkMessage c msg)).1
        (contf cid (formatChunkMessage c msg)).2))
      mpa false _ _ rfl
      (hAns (contf cid (formatChunkMessage c msg)).1 (contf cid (formatChunkMessage c msg)).2).1
      (hAns (contf cid (formatChunkMessage c msg)).1 (contf cid (formatChunkMessage c msg)).2).2
      (by simpa using hmpa)
    obtain ⟨req2, tot2, h1, h2⟩ :=
      ih (some (contf cid (formatChunkMessage c msg)).2)
        (tot + smartEstimateTokens
          (ans (contf cid (formatChunkMessage c msg)).1
            (contf cid (formatChunkMessage c msg)).2).2) htail
    refine ⟨req2, tot2, ?_, ?_⟩
    · simp only [chunkLoop, hc, Bool.false_eq_true, if_false, happyBackend_cont,
        happyBackend_getAnswer, Option.getD_some, hpoll]
      exact h1
    · simp only [chunkLoop, hc, Bool.false_eq_true, if_false, happyBackend_cont,
        happyBackend_getAnswer, Option.getD_some, hpoll, List.map_cons]
      rw [h2]

/-- Claim C1: when the chunked strategy runs on a message whose segmenter
output has at least two segments, against a backend whose calls succeed and
whose polls immediately finish with non-empty answers, the orchestrator
issues exactly one create call with the first formatted segment, then one
continue call per remaining segment on the conversation id returned by the
create, in segment order, then one final consolidation continue on that
same id; the returned answer is the polled answer of the consolidation
exchange and chunksProcessed is the segment count. -/
theorem claim1_chunked_flow
    (create : String → List String → String × String)
    (contf : String → String → String × String)
    (ans : String → String → String × String)
    (hAns : ∀ c r, (ans c r).1 = "finished" ∧ (ans c r).2 ≠ "")
    (chunkOpts : ChunkOptions) (mpa : Nat) (hmpa : 1 ≤ mpa) (message : String)
    (c0 : TextChunk) (crest : List TextChunk)
    (hchunks : chunkText chunkOpts message = c0 :: crest) (_hN : crest ≠ []) :
    ∃ totalResp,
      (handleChunkedRequest (happyBackend create contf ans)
          ⟨"chunks", mpa, some chunkOpts, 3⟩ message).1
        = .ok { conversationId := (create (formatChunkMessage c0 message) []).1,
                requestId := (contf (create (formatChunkMessage c0 message) []).1
                    chunkedConsolidationMessage).2,
                strategy := "chunks",
                answer := (ans (contf (create (formatChunkMessage c0 message) []).1
                      chunkedConsolidationMessage).1
                    (contf (create (formatChunkMessage c0 message) []).1
                      chunkedConsolidationMessage).2).2,
                totalInputTokens := 0, totalResponseTokens := totalResp, totalTime := 0,
                chunksProcessed := some (c0 :: crest).length, fileId := none,
                processingSteps := [] }
      ∧ (handleChunkedRequest (happyBackend create contf ans)
          ⟨"chunks", mpa, some chunkOpts, 3⟩ message).2.1
        = BackendCall.create (formatChunkMessage c0 message) []
            :: crest.map (fun c =>
                 BackendCall.cont (create (formatChunkMessage c0 message) []).1
                   (formatChunkMessage c message))
            ++ [BackendCall.cont (create (formatChunkMessage c0 message) []).1
                 chunkedConsolidationMessage] := by
  obtain ⟨hfirst, hrest⟩ :=
    splitText_first_flags smartEstimateTokens chunkOpts message c0 crest hchunks
  have hpoll0 := pollForAnswer_first_success
    (fun _ => .ok (ans (create (formatChunkMessage c0 message) []).1
      (create (formatChunkMessage c0 message) []).2))
    mpa false _ _ rfl
    (hAns (create (formatChunkMessage c0 message) []).1
      (create (formatChunkMessage c0 message) []).2).1
    (hAns (create (formatChunkMessage c0 message) []).1
      (create (formatChunkMessage c0 message) []).2).2
    (by simpa using hmpa)
  obtain ⟨req2, tot2, hloop1, hloop2⟩ :=
    chunkLoop_all_cont create contf ans hAns mpa hmpa message
      (create (formatChunkMessage c0 message) []).1 crest
      (some (create (formatChunkMessage c0 message) []).2)
      (0 + smartEstimateTokens
        (ans (create (formatChunkMessage c0 message) []).1
          (create (formatChunkMessage c0 message) []).2).2) hrest
  have hpollF := pollForAnswer_first_success
    (fun _ => .ok (ans (contf (create (formatChunkMessage c0 message) []).1
        chunkedConsolidationMessage).1
      (contf (create (formatChunkMessage c0 message) []).1
        chunkedConsolidationMessage).2))
    mpa false _ _ rfl
    (hAns _ _).1 (hAns _ _).2 (by simpa using hmpa)
  have hstep1 : (chunkLoop (happyBackend create contf ans) mpa message
        (c0 :: crest) none none 0).result
      = (chunkLoop (happyBackend create contf ans) mpa message crest
            (some (create (formatChunkMessage c0 message) []).1)
            (some (create (formatChunkMessage c0 message) []).2)
            (0 + smartEstimateTokens
              (ans (create (formatChunkMessage c0 message) []).1
                (create (formatChunkMessage c0 message) []).2).2)).result := by
    simp only [chunkLoop, hfirst, if_true, happyBackend_create, happyBackend_getAnswer,
      hpoll0]
  have hstep2 : (chunkLoop (happyBackend create contf ans) mpa message
        (c0 :: crest) none none 0).calls
      = BackendCall.create (formatChunkMessage c0 message) []
          :: (chunkLoop (happyBackend create contf ans) mpa message crest
                (some (create (formatChunkMessage c0 message) []).1)
                (some (create (formatChunkMessage c0 message) []).2)
                (0 + smartEstimateTokens
                  (ans (create (formatChunkMessage c0 message) []).1
                    (create (formatChunkMessage c0 message) []).2).2)).calls := by
    simp only [chunkLoop, hfirst, if_true, happyBackend_create, happyBackend_getAnswer,
      hpoll0]
  refine ⟨tot2 + smartEstimateTokens
      (ans (contf (create (formatChunkMessage c0 message) []).1
          chunkedConsolidationMessage).1
        (contf (create (formatChunkMessage c0 message) []).1
          chunkedConsolidationMessage).2).2, ?_, ?_⟩
  · show (handleChunkedRequest _ _ _).1 = _
    simp only [handleChunkedRequest, Option.getD_some, hchunks]
    rw [if_neg (by simp)]
    simp only [hstep1, hloop1, Option.getD_some, happyBackend_cont, happyBackend_getAnswer,
      hpollF]
  · show (handleChunkedRequest _ _ _).2.1 = _
    simp only [handleChunkedRequest, Option.getD_some, hchunks]
    rw [if_neg (by simp)]
    simp only [hstep1, hstep2, hloop1, hloop2, Option.getD_some, happyBackend_cont,
      happyBackend_getAnswer, hpollF, List.cons_append]

/-- Claim C1 witness: the chunked flow at a concrete two-segment message
with a concrete always-succeeding backend. -/
theorem claim1_witness :
    ∃ totalResp,
      (handleChunkedRequest
          (happyBackend (fun _ _ => ("c1", "r1")) (fun _ _ => ("c1", "r2"))
            (fun _ _ => ("finished", "OK")))
          ⟨"chunks", 1, some ⟨6, 0, SplitStrategy.paragraph, "", ""⟩, 3⟩
          "q8z9 w3k7 r2m6 t5x1\n\na1b2 c3d4 e5f6").1
        = .ok { conversationId := "c1", requestId := "r2", strategy := "chunks",
                answer := "OK", totalInputTokens := 0, totalResponseTokens := totalResp,
                totalTime := 0, chunksProcessed := some 2, fileId := none,
                processingSteps := ([] : List ProcessingStep) }
      ∧ (handleChunkedRequest
          (happyBackend (fun _ _ => ("c1", "r1")) (fun _ _ => ("c1", "r2"))
            (fun _ _ => ("finished", "OK")))
          ⟨"chunks", 1, some ⟨6, 0, SplitStrategy.paragraph, "", ""⟩, 3⟩
          "q8z9 w3k7 r2m6 t5x1\n\na1b2 c3d4 e5f6").2.1
        = [BackendCall.create
             "[This is a large message split into 2 parts. Part 1/2]\n\nq8z9 w3k7 r2m6 t5x1" [],
           BackendCall.cont "c1"
             "[Continuing from previous parts. Final part 2/2]\n\na1b2 c3d4 e5f6",
           BackendCall.cont "c1" chunkedConsolidationMessage] :=
  claim1_chunked_flow (fun _ _ => ("c1", "r1")) (fun _ _ => ("c1", "r2"))
    (fun _ _ => ("finished", "OK"))
    (fun _ _ => ⟨rfl, by show ("OK" : String) ≠ ""; decide⟩)
    ⟨6, 0, SplitStrategy.paragraph, "", ""⟩ 1 (by omega)
    "q8z9 w3k7 r2m6 t5x1\n\na1b2 c3d4 e5f6"
    ⟨"q8z9 w3k7 r2m6 t5x1", 5, 0, 2, true, false, 0, 19⟩
    [⟨"a1b2 c3d4 e5f6", 5, 1, 2, false, true, 19, 35⟩]
    (by with_unfolding_all rfl) (by decide)

end Toqan
